import Mathlib

/-!
# Verification of the TIP type-inference core

A shallow embedding of the repository's Union-Find based type-inference
engine (`union-find.ts`, `type-utils.ts`, `constraint-collector.ts`,
`type-validator.ts`, `tip-type-check.ts`) together with proofs about it.

JavaScript `Map<string, V>` objects are modelled as insertion-ordered
association lists (`List (String × V)`): `Map.set` replaces the first
binding in place or appends a fresh binding at the end, `Map.get`
returns the first binding, exactly as the JS runtime does.
-/

set_option autoImplicit false
set_option linter.unusedVariables false

namespace Tip

/-- `Map.get`: first binding for a key, if any. -/
def alookup {β : Type} : List (String × β) → String → Option β
  | [], _ => none
  | (k, v) :: t, x => if k = x then some v else alookup t x

/-- `Map.set`: replace the first binding in place, else append at the end. -/
def aset {β : Type} : List (String × β) → String → β → List (String × β)
  | [], k, v => [(k, v)]
  | (k', v') :: t, k, v =>
    if k' = k then (k, v) :: t else (k', v') :: aset t k v

/-- `Map.has`. -/
def ahas {β : Type} (m : List (String × β)) (x : String) : Bool :=
  (alookup m x).isSome

theorem alookup_aset {β : Type} (m : List (String × β)) (k : String) (v : β)
    (x : String) :
    alookup (aset m k v) x = if k = x then some v else alookup m x := by
  induction m with
  | nil => simp [aset, alookup]
  | cons hd t ih =>
    obtain ⟨k', v'⟩ := hd
    by_cases hk : k' = k
    · subst hk
      by_cases hx : k' = x <;> simp [aset, alookup, hx]
    · by_cases hx : k' = x
      · subst hx
        have : ¬ k = k' := fun h => hk h.symm
        simp [aset, alookup, hk, this]
      · simp [aset, alookup, hk, hx, ih]

theorem alookup_aset_self {β : Type} (m : List (String × β)) (k : String)
    (v : β) : alookup (aset m k v) k = some v := by
  simp [alookup_aset]

theorem alookup_aset_ne {β : Type} (m : List (String × β)) (k : String)
    (v : β) (x : String) (h : k ≠ x) :
    alookup (aset m k v) x = alookup m x := by
  simp [alookup_aset, h]

/-- Setting a key to the value it already has is a no-op on lookups. -/
theorem alookup_aset_eq_of_lookup {β : Type} (m : List (String × β))
    (k : String) (v : β) (h : alookup m k = some v) (x : String) :
    alookup (aset m k v) x = alookup m x := by
  rw [alookup_aset]
  by_cases hx : k = x
  · subst hx; simp [h]
  · simp [hx]

/-!
## AST (`types.ts`)

One inductive covering the expression and statement nodes the type-checking
core manipulates.  The TS discriminant strings (`"NumberLiteral"`, …) are in
bijection with the constructors; `variable`/`Variable` is spelled `var`/
`varName` because `variable` is a Lean keyword.  The `arr` constructor stands
for a raw JS array appearing in an expression position (the parser sometimes
nests `arguments`/`properties` one level deep, e.g. `[[a, b]]`, and the
source tests `Array.isArray(args[0])` for it).
-/

inductive Ast where
  /-- `NumberLiteral { value }` -/
  | numberLit (value : Int)
  /-- `Variable { name }` -/
  | var (name : String)
  /-- `BinaryExpression { operator, left, right }` -/
  | binary (operator : String) (left : Ast) (right : Ast)
  /-- `UnaryExpression { operator, operand }` -/
  | unary (operator : String) (operand : Ast)
  /-- `InputExpression` -/
  | inputExpr
  /-- `AllocExpression { expression }` -/
  | alloc (expression : Ast)
  /-- `AddressExpression { variable }` -/
  | address (varName : String)
  /-- `DereferenceExpression { expression }` -/
  | deref (expression : Ast)
  /-- `NullLiteral`, possibly carrying the spread-in `_nullId` counter. -/
  | nullLit (nullId : Option Nat)
  /-- `FunctionCall { callee, arguments }` -/
  | funcCall (callee : Ast) (arguments : List Ast)
  /-- a raw JS array in expression position (nested `arguments`). -/
  | arr (elems : List Ast)
  /-- `ObjectLiteral { properties }`, properties flattened to key/value pairs. -/
  | objectLit (properties : List (String × Ast))
  /-- `PropertyAccess { object, property }` -/
  | propertyAccess (object : Ast) (property : String)
  /-- `AssignmentStatement { variable, expression }` -/
  | assignment (varName : String) (expression : Ast)
  /-- `OutputStatement { expression }` -/
  | output (expression : Ast)
  /-- `IfStatement { condition, thenStatement, elseStatement? }` -/
  | ifStmt (condition : Ast) (thenStatement : List Ast)
      (elseStatement : Option (List Ast))
  /-- `WhileStatement { condition, body }` -/
  | whileStmt (condition : Ast) (body : List Ast)
  /-- `PointerAssignmentStatement { pointer, value }` -/
  | pointerAssign (pointer : Ast) (value : Ast)
  /-- `DirectPropertyAssignmentStatement { object, property, value }` -/
  | directPropAssign (object : String) (property : String) (value : Ast)
  /-- `PropertyAssignmentStatement { object, property, value }` -/
  | propAssign (object : Ast) (property : String) (value : Ast)
  /-- `ReturnStatement { expression }` -/
  | returnStmt (expression : Ast)
  /-- `FunctionDeclaration { name, parameters, localVariables?, body,
      returnExpression }` -/
  | funcDecl (name : String) (parameters : List String)
      (localVariables : List String) (body : List Ast)
      (returnExpression : Ast)

/-!
## Concrete types (`ConcreteType` in `types.ts`)

The `custom` constructor is the `CustomType { expression }` escape hatch: a
deferred reference to "the type of this expression", kept verbatim by
`toConcreteType` and resolved through the Union-Find store.  `pointsTo`,
`returnType` and `body` are optional exactly where the source guards for
`undefined`.
-/

inductive CType where
  | int
  | pointer (pointsTo : Option CType)
  | function (parameters : List CType) (returnType : Option CType)
  | typevar (name : String)
  | recursive (tvar : String) (body : Option CType)
  | record (fields : List (String × CType))
  | custom (expression : Ast)

/-- The regex `/^[α-ω](\d+)?$/` used to recognise generated type-variable
names (first char a lowercase Greek letter, then an optional digit run). -/
def isGreekTypeVarName (s : String) : Bool :=
  match s.data with
  | [] => false
  | c :: rest => ('α' ≤ c && c ≤ 'ω') && rest.all Char.isDigit

/-- `type1.type === "typevar"` — top-level tag test used by `union`. -/
def CType.isTypevar : CType → Bool
  | .typevar _ => true
  | _ => false

/-!
`UnionFind.hasTypeVariable` (`union-find.ts` 240–273): recursive descent
for a type variable through pointer targets, function parameter/return
types and record fields, plus the `CustomType` special case testing the
wrapped expression against the Greek-letter naming regex.
-/

mutual

def hasTypeVariable : CType → Bool
  | .typevar _ => true
  | .pointer p? =>
    match p? with
    | some p => hasTypeVariable p
    | none => false
  | .function ps rt =>
    (anyHasTypeVariable ps ||
      match rt with
      | some r => hasTypeVariable r
      | none => false)
  | .record fs => anyFieldHasTypeVariable fs
  | .custom e =>
    match e with
    | .var n => isGreekTypeVarName n
    | _ => false
  | _ => false

def anyHasTypeVariable : List CType → Bool
  | [] => false
  | t :: ts => hasTypeVariable t || anyHasTypeVariable ts

def anyFieldHasTypeVariable : List (String × CType) → Bool
  | [] => false
  | f :: fs => hasTypeVariable f.2 || anyFieldHasTypeVariable fs

end

theorem sizeOf_find?_le (l : List (String × CType)) (p : String × CType → Bool) :
    sizeOf (l.find? p) ≤ sizeOf l := by
  induction l with
  | nil => simp [List.find?]
  | cons hd t ih =>
    rw [List.find?]
    cases p hd <;> (simp; try omega)

/-!
`UnionFind.isCompatible` (`union-find.ts` 123–233).  The check order of the
source is kept: pointer/int exclusion first, then the recursive/function
unwrapping, then the tag-equality gate, then the per-tag structural cases.
A `custom` type has no `.type` tag, so it falls through every case to the
final `false` (two `custom`s have equal — `undefined` — tags and then hit
the switch's `default`).  In the `recursive ~ recursive` case the source
dereferences both bodies unguarded (it would throw on a missing body); the
embedding returns `false` there, which no collector-produced type reaches.
-/

mutual

def isCompatible : CType → CType → Bool
  | .pointer _, .int => false
  | .int, .pointer _ => false
  | .recursive v b?, .function ps rt =>
    (match b? with
     | some b =>
       match b with
       | .function ps' rt' => isCompatible (.function ps' rt') (.function ps rt)
       | _ => false
     | none => false)
  | .function ps rt, .recursive v b? =>
    (match b? with
     | some b =>
       match b with
       | .function ps' rt' => isCompatible (.function ps rt) (.function ps' rt')
       | _ => false
     | none => false)
  | .int, .int => true
  | .pointer p1, .pointer p2 =>
    (match p1, p2 with
     | none, _ => true
     | _, none => true
     | some a, some b =>
       if hasTypeVariable a || hasTypeVariable b then true
       else isCompatible a b)
  | .function ps1 rt1, .function ps2 rt2 =>
    if ps1.length ≠ ps2.length then false
    else
      (paramsCompatible ps1 ps2 &&
        match rt1, rt2 with
        | some r1, some r2 => isCompatible r1 r2
        | _, _ => true)
  | .typevar _, .typevar _ => true
  | .recursive v1 b1, .recursive v2 b2 =>
    (v1 = v2 : Bool) &&
      (match b1, b2 with
       | some x, some y => isCompatible x y
       | _, _ => false)
  | .record f1, .record f2 => fieldsSubset f1 f2 || fieldsSubset f2 f1
  | _, _ => false
termination_by t1 t2 => sizeOf t1 + sizeOf t2
decreasing_by all_goals (simp_wf; omega)

/-- The parameter loop of the `function` case (lengths already equal). -/
def paramsCompatible : List CType → List CType → Bool
  | [], _ => true
  | _ :: _, [] => true
  | a :: as_, b :: bs => isCompatible a b && paramsCompatible as_ bs
termination_by l1 l2 => sizeOf l1 + sizeOf l2
decreasing_by all_goals (simp_wf; omega)

/-- One step of `isSubset`: `larger.fields.find(...)` returned `found`;
a missing field or an incompatible field type fails. -/
def foundFieldCompatible (t : CType) : Option (String × CType) → Bool
  | none => false
  | some f2 => isCompatible t f2.2
termination_by found => sizeOf t + sizeOf found
decreasing_by
  all_goals simp_wf
  obtain ⟨x, y⟩ := f2
  simp
  omega

/-- `isSubset(smaller, larger)` from the `record` case: every field of
`smaller` must occur (by name) in `larger` with a compatible type. -/
def fieldsSubset : List (String × CType) → List (String × CType) → Bool
  | [], _ => true
  | (n, t) :: rest, larger =>
    foundFieldCompatible t (larger.find? (fun f => f.1 = n)) &&
      fieldsSubset rest larger
termination_by f1 f2 => sizeOf f1 + sizeOf f2
decreasing_by
  all_goals simp_wf
  all_goals first
    | omega
    | (have hsz := sizeOf_find?_le larger (fun f => decide (f.1 = n)); omega)

end

/-!
## JSON serialization (`JSON.stringify(expr).replace(/\s/g, "")`)

Union-Find identifiers are derived from compact JSON serializations of AST
nodes and type-literal objects.  Key order follows the order in which the
source constructs the objects (which is what `JSON.stringify` emits);
`undefined` fields (`_nullId`, `elseStatement`, an absent `returnType`, …)
are omitted, as `JSON.stringify` drops them.
-/

def jsonOfStrList (l : List String) : String :=
  "[" ++ String.intercalate "," (l.map (fun s => "\"" ++ s ++ "\"")) ++ "]"

/-!
The serializers recurse through nested lists; like the collector walk they
take a depth fuel (first argument) so that they stay kernel-computable.
Any fuel exceeding the AST depth yields the exact `JSON.stringify` output.
-/

mutual

def jsonOfAst : Nat → Ast → String
  | 0, _ => ""
  | fuel + 1, e =>
    match e with
    | .numberLit v => "\x7b\"type\":\"NumberLiteral\",\"value\":" ++ toString v ++ "\x7d"
    | .var n => "\x7b\"type\":\"Variable\",\"name\":\"" ++ n ++ "\"\x7d"
    | .binary op l r =>
      "\x7b\"type\":\"BinaryExpression\",\"operator\":\"" ++ op ++ "\",\"left\":" ++
        jsonOfAst fuel l ++ ",\"right\":" ++ jsonOfAst fuel r ++ "\x7d"
    | .unary op e1 =>
      "\x7b\"type\":\"UnaryExpression\",\"operator\":\"" ++ op ++ "\",\"operand\":" ++
        jsonOfAst fuel e1 ++ "\x7d"
    | .inputExpr => "\x7b\"type\":\"InputExpression\"\x7d"
    | .alloc e1 => "\x7b\"type\":\"AllocExpression\",\"expression\":" ++ jsonOfAst fuel e1 ++ "\x7d"
    | .address v => "\x7b\"type\":\"AddressExpression\",\"variable\":\"" ++ v ++ "\"\x7d"
    | .deref e1 =>
      "\x7b\"type\":\"DereferenceExpression\",\"expression\":" ++ jsonOfAst fuel e1 ++ "\x7d"
    | .nullLit none => "\x7b\"type\":\"NullLiteral\"\x7d"
    | .nullLit (some n) => "\x7b\"type\":\"NullLiteral\",\"_nullId\":" ++ toString n ++ "\x7d"
    | .funcCall c args =>
      "\x7b\"type\":\"FunctionCall\",\"callee\":" ++ jsonOfAst fuel c ++ ",\"arguments\":[" ++
        commaJoinAst fuel args ++ "]\x7d"
    | .arr es => "[" ++ commaJoinAst fuel es ++ "]"
    | .objectLit props =>
      "\x7b\"type\":\"ObjectLiteral\",\"properties\":[" ++ commaJoinProps fuel props ++ "]\x7d"
    | .propertyAccess o p =>
      "\x7b\"type\":\"PropertyAccess\",\"object\":" ++ jsonOfAst fuel o ++ ",\"property\":\"" ++
        p ++ "\"\x7d"
    | .assignment v e1 =>
      "\x7b\"type\":\"AssignmentStatement\",\"variable\":\"" ++ v ++ "\",\"expression\":" ++
        jsonOfAst fuel e1 ++ "\x7d"
    | .output e1 => "\x7b\"type\":\"OutputStatement\",\"expression\":" ++ jsonOfAst fuel e1 ++ "\x7d"
    | .ifStmt c t e? =>
      "\x7b\"type\":\"IfStatement\",\"condition\":" ++ jsonOfAst fuel c ++
        ",\"thenStatement\":[" ++ commaJoinAst fuel t ++ "]" ++
        (match e? with
         | some es => ",\"elseStatement\":[" ++ commaJoinAst fuel es ++ "]"
         | none => "") ++ "\x7d"
    | .whileStmt c b =>
      "\x7b\"type\":\"WhileStatement\",\"condition\":" ++ jsonOfAst fuel c ++ ",\"body\":[" ++
        commaJoinAst fuel b ++ "]\x7d"
    | .pointerAssign p v =>
      "\x7b\"type\":\"PointerAssignmentStatement\",\"pointer\":" ++ jsonOfAst fuel p ++
        ",\"value\":" ++ jsonOfAst fuel v ++ "\x7d"
    | .directPropAssign o p v =>
      "\x7b\"type\":\"DirectPropertyAssignmentStatement\",\"object\":\"" ++ o ++
        "\",\"property\":\"" ++ p ++ "\",\"value\":" ++ jsonOfAst fuel v ++ "\x7d"
    | .propAssign o p v =>
      "\x7b\"type\":\"PropertyAssignmentStatement\",\"object\":" ++ jsonOfAst fuel o ++
        ",\"property\":\"" ++ p ++ "\",\"value\":" ++ jsonOfAst fuel v ++ "\x7d"
    | .returnStmt e1 =>
      "\x7b\"type\":\"ReturnStatement\",\"expression\":" ++ jsonOfAst fuel e1 ++ "\x7d"
    | .funcDecl n ps lv b re =>
      "\x7b\"type\":\"FunctionDeclaration\",\"name\":\"" ++ n ++ "\",\"parameters\":" ++
        jsonOfStrList ps ++ ",\"localVariables\":" ++ jsonOfStrList lv ++ ",\"body\":[" ++
        commaJoinAst fuel b ++ "],\"returnExpression\":" ++ jsonOfAst fuel re ++ "\x7d"

def commaJoinAst : Nat → List Ast → String
  | _, [] => ""
  | fuel, [e] => jsonOfAst fuel e
  | fuel, e :: rest => jsonOfAst fuel e ++ "," ++ commaJoinAst fuel rest

def commaJoinProps : Nat → List (String × Ast) → String
  | _, [] => ""
  | fuel, [(k, v)] => "\x7b\"key\":\"" ++ k ++ "\",\"value\":" ++ jsonOfAst fuel v ++ "\x7d"
  | fuel, (k, v) :: rest =>
    "\x7b\"key\":\"" ++ k ++ "\",\"value\":" ++ jsonOfAst fuel v ++ "\x7d," ++
      commaJoinProps fuel rest

end

/-- The TS `.type` discriminant of an AST node, as interpolated into error
messages (`constraint.originAST.type`).  A raw array has no `.type`
property; a template literal renders it as `"undefined"`. -/
def tagOf : Ast → String
  | .numberLit _ => "NumberLiteral"
  | .var _ => "Variable"
  | .binary .. => "BinaryExpression"
  | .unary .. => "UnaryExpression"
  | .inputExpr => "InputExpression"
  | .alloc _ => "AllocExpression"
  | .address _ => "AddressExpression"
  | .deref _ => "DereferenceExpression"
  | .nullLit _ => "NullLiteral"
  | .funcCall .. => "FunctionCall"
  | .arr _ => "undefined"
  | .objectLit _ => "ObjectLiteral"
  | .propertyAccess .. => "PropertyAccess"
  | .assignment .. => "AssignmentStatement"
  | .output _ => "OutputStatement"
  | .ifStmt .. => "IfStatement"
  | .whileStmt .. => "WhileStatement"
  | .pointerAssign .. => "PointerAssignmentStatement"
  | .directPropAssign .. => "DirectPropertyAssignmentStatement"
  | .propAssign .. => "PropertyAssignmentStatement"
  | .returnStmt _ => "ReturnStatement"
  | .funcDecl .. => "FunctionDeclaration"

/-!
## Type operands (`Type` in `types.ts`)

A constraint operand is either a `CustomType { expression }` wrapper
(`texpr`) or a type-literal object, exactly the shapes the collector
constructs.
-/

inductive TOperand where
  | texpr (expression : Ast)
  | tint
  | tpointer (pointsTo : Option TOperand)
  | tfunction (parameters : List TOperand) (returnType : Option TOperand)
  | trecursive (tvar : String) (body : Option TOperand)
  | trecord (fields : List (String × TOperand))

mutual

def jsonOfOperand : Nat → TOperand → String
  | 0, _ => ""
  | fuel + 1, item =>
    match item with
    | .texpr e => "\x7b\"expression\":" ++ jsonOfAst fuel e ++ "\x7d"
    | .tint => "\x7b\"type\":\"int\"\x7d"
    | .tpointer none => "\x7b\"type\":\"pointer\"\x7d"
    | .tpointer (some p) =>
      "\x7b\"type\":\"pointer\",\"pointsTo\":" ++ jsonOfOperand fuel p ++ "\x7d"
    | .tfunction ps rt =>
      "\x7b\"type\":\"function\",\"parameters\":[" ++ commaJoinOperand fuel ps ++ "]" ++
        (match rt with
         | some r => ",\"returnType\":" ++ jsonOfOperand fuel r
         | none => "") ++ "\x7d"
    | .trecursive v b? =>
      "\x7b\"type\":\"recursive\",\"variable\":\"" ++ v ++ "\"" ++
        (match b? with
         | some b => ",\"body\":" ++ jsonOfOperand fuel b
         | none => "") ++ "\x7d"
    | .trecord fields =>
      "\x7b\"type\":\"record\",\"fields\":[" ++ commaJoinField fuel fields ++ "]\x7d"

def commaJoinOperand : Nat → List TOperand → String
  | _, [] => ""
  | fuel, [o] => jsonOfOperand fuel o
  | fuel, o :: rest => jsonOfOperand fuel o ++ "," ++ commaJoinOperand fuel rest

def commaJoinField : Nat → List (String × TOperand) → String
  | _, [] => ""
  | fuel, [(n, t)] => "\x7b\"name\":\"" ++ n ++ "\",\"fieldType\":" ++ jsonOfOperand fuel t ++ "\x7d"
  | fuel, (n, t) :: rest =>
    "\x7b\"name\":\"" ++ n ++ "\",\"fieldType\":" ++ jsonOfOperand fuel t ++ "\x7d," ++
      commaJoinField fuel rest

end

/-!
`getTypeId` (`type-utils.ts` 265–285): identifier of an operand.  A
`NullLiteral` carrying a `_nullId` gets `expr_null_<id>` (context ignored);
a `NullLiteral` without one is salted with the context id when present; any
other expression ignores the context entirely; type literals serialize to
`type_<json>`.  The `unknown_<random>` fallback is unreachable for the
operand shapes above.
-/
def getTypeId (fuel : Nat) (item : TOperand) (contextId : Option String) :
    String :=
  match item with
  | .texpr e =>
    let baseId := "expr_" ++ jsonOfAst fuel e
    match e with
    | .nullLit (some n) => "expr_null_" ++ toString n
    | .nullLit none =>
      (match contextId with
       | some c => baseId ++ "_" ++ c
       | none => baseId)
    | _ => baseId
  | _ => "type_" ++ jsonOfOperand fuel item

/-!
`toConcreteType` (`type-utils.ts` 292–396).  Check order as in the source:
`int`, `pointer`, Greek-named variable expression (→ `typevar`), `function`,
`recursive`, `record`, else `null`.  Nested `{ expression }` wrappers are
kept verbatim as `custom` types.
-/

mutual

def toConcreteType : Nat → TOperand → Option CType
  | 0, _ => none
  | fuel + 1, item =>
    match item with
    | .tint => some .int
    | .tpointer p? =>
      some (.pointer
        (match p? with
         | some (.texpr e) => some (.custom e)
         | some p => toConcreteType fuel p
         | none => none))
    | .texpr e =>
      (match e with
       | .var n => if isGreekTypeVarName n then some (.typevar n) else none
       | _ => none)
    | .tfunction ps rt =>
      some (.function (toConcreteTypeList fuel ps)
        (match rt with
         | some (.texpr e) => some (.custom e)
         | some r => toConcreteType fuel r
         | none => none))
    | .trecursive v b? =>
      some (.recursive v
        (match b? with
         | some (.texpr e) => some (.custom e)
         | some b => toConcreteType fuel b
         | none => none))
    | .trecord fields => some (.record (toConcreteFields fuel fields))

/-- `parameters?.map(toConcreteType).filter(t => t !== null)`. -/
def toConcreteTypeList : Nat → List TOperand → List CType
  | _, [] => []
  | fuel, p :: ps =>
    (match toConcreteType fuel p with
     | some t => [t]
     | none => []) ++ toConcreteTypeList fuel ps

/-- The `record` field loop: keep the `custom` wrapper for `\x7b expression \x7d`
field types, convert the rest, drop fields whose conversion is `null`. -/
def toConcreteFields : Nat → List (String × TOperand) → List (String × CType)
  | _, [] => []
  | fuel, (n, ft) :: rest =>
    (match
      (match ft with
       | .texpr e => some (.custom e)
       | x => toConcreteType fuel x) with
     | some t => [(n, t)]
     | none => []) ++ toConcreteFields fuel rest

end

/-!
## The Union-Find store (`union-find.ts`)

`find` follows parent pointers recursively; in the JS source termination is
guaranteed because reachable stores are forests.  The embedding takes an
explicit `fuel` bound on the number of recursive steps; every theorem either
holds for all fuels or assumes fuel exceeding the relevant chain length.
-/

structure UF where
  parent : List (String × String)
  rank : List (String × Nat)
  typeInfo : List (String × Option CType)

def UF.empty : UF := ⟨[], [], []⟩

/-- `makeSet(id, concreteType?)`: unconditional (re-)registration
(`union-find.ts` 24–28); `concreteType || null` collapses `undefined` and
`null`, which the `Option` argument already does. -/
def makeSet (uf : UF) (id : String) (concreteType : Option CType) : UF :=
  { parent := aset uf.parent id id
    rank := aset uf.rank id 0
    typeInfo := aset uf.typeInfo id concreteType }

/-- `find(id)` (`union-find.ts` 35–47): auto-registers an unseen id, applies
path compression.  With exhausted fuel it returns the id unresolved (never
hit when `fuel` exceeds the parent-chain length). -/
def findAux : Nat → UF → String → String × UF
  | fuel, uf, id =>
    match alookup uf.parent id with
    | none => (id, makeSet uf id none)
    | some p =>
      if p = id then (id, uf)
      else
        match fuel with
        | 0 => (id, uf)
        | fuel' + 1 =>
          let res := findAux fuel' uf p
          (res.1, { res.2 with parent := aset res.2.parent id res.1 })

/-- `this.typeInfo.get(root)` — `undefined` and `null` both read as "no
payload". -/
def payload (uf : UF) (id : String) : Option CType :=
  Option.join (alookup uf.typeInfo id)

/-- The `selectBetterType` closure inside `union` (`union-find.ts` 90–100). -/
def selectBetterType : Option CType → Option CType → Option CType
  | none, t2 => t2
  | some t1, none => some t1
  | some t1, some t2 =>
    if t1.isTypevar && !t2.isTypevar then some t2
    else if t2.isTypevar && !t1.isTypevar then some t1
    else some t1

/-- set `typeInfo` entry. -/
def setTypeInfo (uf : UF) (id : String) (t : Option CType) : UF :=
  { uf with typeInfo := aset uf.typeInfo id t }

/-- `union(id1, id2)` (`union-find.ts` 55–115).  Returns the source's boolean
result together with the updated store.  `this.rank.get(root)!` is modelled
with a `0` default: every root produced by `findAux` has been registered by
`makeSet`, which always fills the rank map, so the non-null assertion is
sound on every reachable store and the default is never read. -/
def union (fuel : Nat) (uf : UF) (id1 id2 : String) : Bool × UF :=
  let f1 := findAux fuel uf id1
  let root1 := f1.1
  let f2 := findAux fuel f1.2 id2
  let root2 := f2.1
  let uf2 := f2.2
  if root1 = root2 then (true, uf2)
  else
    let type1 := payload uf2 root1
    let type2 := payload uf2 root2
    -- `if (type1 && type2) { ... }` either returns `false` or mutates
    -- `typeInfo` and falls through to the rank merge.
    let afterCheck : Option UF :=
      match type1, type2 with
      | some t1, some t2 =>
        if t1.isTypevar || t2.isTypevar then
          if t1.isTypevar && !t2.isTypevar then
            some (setTypeInfo uf2 root1 (some t2))
          else if t2.isTypevar && !t1.isTypevar then
            some (setTypeInfo uf2 root2 (some t1))
          else some uf2
        else if !isCompatible t1 t2 then none
        else
          match t1, t2 with
          | .recursive v b, .function ps rt =>
            some (setTypeInfo uf2 root1 (some (.recursive v b)))
          | .function ps rt, .recursive v b =>
            some (setTypeInfo uf2 root2 (some (.recursive v b)))
          | _, _ => some uf2
      | _, _ => some uf2
    match afterCheck with
    | none => (false, uf2)
    | some uf3 =>
      let rank1 := (alookup uf3.rank root1).getD 0
      let rank2 := (alookup uf3.rank root2).getD 0
      if rank1 < rank2 then
        (true,
          { uf3 with
            parent := aset uf3.parent root1 root2
            typeInfo := aset uf3.typeInfo root2 (selectBetterType type2 type1) })
      else if rank2 < rank1 then
        (true,
          { uf3 with
            parent := aset uf3.parent root2 root1
            typeInfo := aset uf3.typeInfo root1 (selectBetterType type1 type2) })
      else
        (true,
          { uf3 with
            parent := aset uf3.parent root2 root1
            rank := aset uf3.rank root1 (rank1 + 1)
            typeInfo := aset uf3.typeInfo root1 (selectBetterType type1 type2) })

/-- `getType(id)` (`union-find.ts` 280–283). -/
def getType (fuel : Nat) (uf : UF) (id : String) : Option CType × UF :=
  let r := findAux fuel uf id
  (payload r.2 r.1, r.2)

/-- The loop body of `getAllGroups` (`union-find.ts` 289–301), iterating the
parent keys in insertion order; `groups.get(root)!.push(id)` appends. -/
def getAllGroupsAux (fuel : Nat) :
    List String → UF → List (String × List String) →
    List (String × List String) × UF
  | [], uf, groups => (groups, uf)
  | id :: rest, uf, groups =>
    let r := findAux fuel uf id
    let groups' :=
      match alookup groups r.1 with
      | none => aset groups r.1 [id]
      | some members => aset groups r.1 (members ++ [id])
    getAllGroupsAux fuel rest r.2 groups'

def getAllGroups (fuel : Nat) (uf : UF) : List (String × List String) × UF :=
  getAllGroupsAux fuel (uf.parent.map (·.1)) uf []

/-- JS `String.prototype.includes`. -/
def strContains (s pat : String) : Bool :=
  (List.range (s.data.length + 1)).any (fun i => pat.data.isPrefixOf (s.data.drop i))

/-- `findTypeByPattern(exprName)` (`union-find.ts` 332–339): first `typeInfo`
entry with a payload whose id contains the pattern.  Reads the store only —
no `find`, no mutation. -/
def findTypeByPatternAux : List (String × Option CType) → String → Option CType
  | [], _ => none
  | (id, t?) :: rest, nm =>
    match t? with
    | some t => if strContains id nm then some t else findTypeByPatternAux rest nm
    | none => findTypeByPatternAux rest nm

def findTypeByPattern (uf : UF) (exprName : String) : Option CType :=
  findTypeByPatternAux uf.typeInfo exprName

/-- Inner member scan of `findConnectedTypes`: first member with a payload
(`this.typeInfo.get(memberId)`, no `find`). -/
def firstTypedMember (uf : UF) : List String → Option CType
  | [] => none
  | m :: ms =>
    match payload uf m with
    | some t => some t
    | none => firstTypedMember uf ms

/-- Group loop of `findConnectedTypes` (`union-find.ts` 313–322): re-runs
`find(targetId)` for every group, returns the first payload found in a
matching group, otherwise keeps scanning. -/
def findConnectedTypesLoop (fuel : Nat) (targetId : String) :
    List (String × List String) → UF → Option CType × UF
  | [], uf => (none, uf)
  | (rep, members) :: rest, uf =>
    let r := findAux fuel uf targetId
    if r.1 = rep then
      match firstTypedMember r.2 members with
      | some t => (some t, r.2)
      | none => findConnectedTypesLoop fuel targetId rest r.2
    else findConnectedTypesLoop fuel targetId rest r.2

/-- `findConnectedTypes(targetExpr)` (`union-find.ts` 308–325). -/
def findConnectedTypes (fuel : Nat) (uf : UF) (targetExpr : Ast) :
    Option CType × UF :=
  let targetId := "expr_" ++ jsonOfAst fuel targetExpr
  let r := findAux fuel uf targetId
  let ag := getAllGroups fuel r.2
  findConnectedTypesLoop fuel targetId ag.1 ag.2

/-!
## Constraints and the solver's unification pass (`tip-type-check.ts`)
-/

/-- `TypeConstraint { originAST, left, right }`. -/
structure Constraint where
  originAST : Ast
  left : List TOperand
  right : List TOperand

/-- Registration of one side's operands, `registerTypesInUnionFind` inner
loops (`tip-type-check.ts` 544–555). -/
def registerOperands (fuel : Nat) (ctx : String) : List TOperand → UF → UF
  | [], uf => uf
  | item :: rest, uf =>
    registerOperands fuel ctx rest
      (makeSet uf (getTypeId fuel item (some ctx)) (toConcreteType fuel item))

/-- `registerTypesInUnionFind` (`tip-type-check.ts` 535–557): every operand
of every constraint becomes a set, salted with `constraint_<i>`. -/
def registerTypesAux (fuel : Nat) : Nat → List Constraint → UF → UF
  | _, [], uf => uf
  | i, c :: rest, uf =>
    let ctx := "constraint_" ++ toString i
    registerTypesAux fuel (i + 1) rest
      (registerOperands fuel ctx c.right (registerOperands fuel ctx c.left uf))

def registerTypesInUnionFind (fuel : Nat) (cs : List Constraint) (uf : UF) : UF :=
  registerTypesAux fuel 0 cs uf

/-- The error string pushed by `unifyConstraintPairs` on a failed union. -/
def errUnifyMsg (origin : Ast) (leftId rightId : String) : String :=
  "타입 충돌: " ++ tagOf origin ++ "에서 타입 불일치 (" ++ leftId ++ " ≠ " ++
    rightId ++ ")"

/-- The `for (let i = 0; i < maxLength; i++)` loop of `unifyConstraintPairs`
(`tip-type-check.ts` 602–624), starting at index `i` with `remaining =
maxLength - i` iterations left (a structurally decreasing counter standing
for the loop guard).  `leftIds[i % leftIds.length]` is `undefined` when the
list is empty (`i % 0` is `NaN`), and the `if (leftId && rightId)` guard
also skips empty strings. -/
def unifyPairsFrom (fuel : Nat) (origin : Ast) (l r : List String) :
    Nat → Nat → UF → List String → UF × List String
  | 0, _, uf, errors => (uf, errors)
  | remaining + 1, i, uf, errors =>
    let step : UF × List String :=
      match l.get? (i % l.length), r.get? (i % r.length) with
      | some leftId, some rightId =>
        if leftId ≠ "" && rightId ≠ "" then
          let u := union fuel uf leftId rightId
          (u.2,
            if u.1 then errors
            else errors ++ [errUnifyMsg origin leftId rightId])
        else (uf, errors)
      | _, _ => (uf, errors)
    unifyPairsFrom fuel origin l r remaining (i + 1) step.1 step.2

def unifyConstraintPairs (fuel : Nat) (origin : Ast)
    (leftIds rightIds : List String) (uf : UF) (errors : List String) :
    UF × List String :=
  unifyPairsFrom fuel origin leftIds rightIds
    (max leftIds.length rightIds.length) 0 uf errors

/-- `handleBinaryExpressionConstraints` (`tip-type-check.ts` 629–663). -/
def handleBinaryExpressionConstraints (fuel : Nat) (c : Constraint)
    (leftIds : List String) (uf : UF) (errors : List String) :
    UF × List String :=
  match c.originAST with
  | .binary op _ _ =>
    if op = "==" && leftIds.length ≥ 2 then
      match leftIds with
      | a :: b :: _ =>
        let u := union fuel uf a b
        (u.2,
          if u.1 then errors
          else errors ++
            ["타입 충돌: 등등 비교에서 피연산자 타입 불일치 (" ++ a ++ " ≠ " ++ b ++ ")"])
      | _ => (uf, errors)
    else if leftIds.length ≥ 3 then
      match leftIds with
      | a :: b :: c3 :: _ =>
        let u1 := union fuel uf a b
        let u2 := union fuel u1.2 a c3
        let errors :=
          if u1.1 then errors
          else errors ++
            ["타입 충돌: 이진 연산에서 피연산자 타입 불일치 (" ++ a ++ " ≠ " ++ b ++ ")"]
        let errors :=
          if u2.1 then errors
          else errors ++
            ["타입 충돌: 이진 연산에서 결과 타입 불일치 (" ++ a ++ " ≠ " ++ c3 ++ ")"]
        (u2.2, errors)
      | _ => (uf, errors)
    else (uf, errors)
  | _ => (uf, errors)

/-- `unifyConstraints` (`tip-type-check.ts` 562–597): assignment-statement
constraints are processed without the context salt. -/
def unifyConstraintsAux (fuel : Nat) :
    Nat → List Constraint → UF → List String → UF × List String
  | _, [], uf, errors => (uf, errors)
  | i, c :: rest, uf, errors =>
    let contextId := "constraint_" ++ toString i
    let isAssignment : Bool :=
      match c.originAST with
      | .assignment .. => true
      | _ => false
    let ctx? : Option String := if isAssignment then none else some contextId
    let leftIds := c.left.map (fun item => getTypeId fuel item ctx?)
    let rightIds := c.right.map (fun item => getTypeId fuel item ctx?)
    let s1 := unifyConstraintPairs fuel c.originAST leftIds rightIds uf errors
    let s2 := handleBinaryExpressionConstraints fuel c leftIds s1.1 s1.2
    unifyConstraintsAux fuel (i + 1) rest s2.1 s2.2

def unifyConstraints (fuel : Nat) (cs : List Constraint) (uf : UF)
    (errors : List String) : UF × List String :=
  unifyConstraintsAux fuel 0 cs uf errors

/-!
## The constraint collector (`constraint-collector.ts`)

State carried across the walk: the growing constraint list, the
type-variable generator counter, the global null-occurrence counter, and
the current function name.
-/

structure Collector where
  constraints : List Constraint
  typeVarCounter : Nat
  nullLiteralCounter : Nat
  currentFunction : Option String

def Collector.push (C : Collector) (c : Constraint) : Collector :=
  { C with constraints := C.constraints ++ [c] }

/-- Modelled from the spec: `TypeVariableGenerator` is declared in
`types.ts`, which is not among the sources; per §4.3 it is "the
type-variable name generator (monotonic Greek-letter-indexed sequence,
reset at the start of each whole-program run)".  The `n`-th generated name
is α, β, …, ω, then α1, β1, …; every name matches the reserved
`/^[α-ω](\d+)?$/` convention that `toConcreteType`/`hasTypeVariable`
recognise. -/
def genTypeVarName (n : Nat) : String :=
  let letters : List Char :=
    ['α', 'β', 'γ', 'δ', 'ε', 'ζ', 'η', 'θ', 'ι', 'κ', 'λ', 'μ',
     'ν', 'ξ', 'ο', 'π', 'ρ', 'σ', 'τ', 'υ', 'φ', 'χ', 'ψ', 'ω']
  let c := letters.getD (n % 24) 'α'
  if n < 24 then String.mk [c] else String.mk [c] ++ toString (n / 24)

/-- The enclosing function's symbol table (parameters + locals). -/
abbrev SymTab := List (String × Ast)

/-- `addNumberLiteralConstraint` (`constraint-collector.ts` 247–254). -/
def addNumberLiteralConstraint (e : Ast) (C : Collector) : Collector :=
  C.push { originAST := e, left := [.texpr e], right := [.tint] }

/-- The constraint pushed by `addBinaryExpressionConstraint`
(`constraint-collector.ts` 259–282) after recursing into the operands
(the recursion happens at the dispatch site below). -/
def addBinaryConstraintPush (e : Ast) (C : Collector) : Collector :=
  match e with
  | .binary op l r =>
    if op = "==" then
      C.push { originAST := e, left := [.texpr l, .texpr e],
               right := [.texpr r, .tint] }
    else
      C.push { originAST := e, left := [.texpr e], right := [.tint] }
  | _ => C

/-- `addInputExpressionConstraint` (`constraint-collector.ts` 287–294). -/
def addInputExpressionConstraint (e : Ast) (C : Collector) : Collector :=
  C.push { originAST := e, left := [.texpr e], right := [.tint] }

/-- The constraint pushed by `addAllocExpressionConstraint`
(`constraint-collector.ts` 299–315) after recursing into the argument. -/
def addAllocConstraintPush (e : Ast) (C : Collector) : Collector :=
  match e with
  | .alloc inner =>
    C.push { originAST := e, left := [.texpr e],
             right := [.tpointer (some (.texpr inner))] }
  | _ => C

/-- `addAddressExpressionConstraint` (`constraint-collector.ts` 320–337).
The source reads `symbolTable.get(expression.variable)!`; the collector
registers every parameter and local beforehand, so the fallback variable
node here is never read on collector-produced tables. -/
def addAddressExpressionConstraint (st : SymTab) (e : Ast) (C : Collector) :
    Collector :=
  match e with
  | .address v =>
    C.push { originAST := e, left := [.texpr e],
             right := [.tpointer (some (.texpr ((alookup st v).getD (.var v))))] }
  | _ => C

/-- `addNullLiteralConstraint` (`constraint-collector.ts` 342–368): draw a
fresh type variable, bump the per-occurrence null counter, and constrain
the `_nullId`-tagged copy of the literal to `pointer(freshTypeVariable)`. -/
def addNullLiteralConstraint (e : Ast) (C : Collector) : Collector :=
  let newTypeVarName := genTypeVarName C.typeVarCounter
  let C := { C with typeVarCounter := C.typeVarCounter + 1 }
  let C := { C with nullLiteralCounter := C.nullLiteralCounter + 1 }
  let uniqueNullExpression := Ast.nullLit (some C.nullLiteralCounter)
  C.push { originAST := e,
           left := [.texpr uniqueNullExpression],
           right := [.tpointer (some (.texpr (.var newTypeVarName)))] }

/-- The `rightSide` computation of `addFunctionCallConstraint`: a recursive
call links to the sentinel `result` variable, any other named callee to a
freshly generated type variable, a non-variable callee to an empty right
side. -/
def funcCallRightSide (callee : Ast) (C : Collector) :
    List TOperand × Collector :=
  match callee with
  | .var functionName =>
    if some functionName = C.currentFunction then
      ([.texpr (.var "result")], C)
    else
      let tv := genTypeVarName C.typeVarCounter
      ([.texpr (.var tv)], { C with typeVarCounter := C.typeVarCounter + 1 })
  | _ => ([], C)

/-- The constraint(s) pushed by `addFunctionCallConstraint`
(`constraint-collector.ts` 373–483) after the argument/callee recursion:
the call-result constraint, plus the hard-coded `process`/`ptr`
argument-parameter link when the (nested) argument list is non-empty. -/
def addFunctionCallConstraintPush (e : Ast) (C : Collector) : Collector :=
  match e with
  | .funcCall callee args =>
    match args with
    | .arr actualArgs :: _ =>
      let rs := funcCallRightSide callee C
      let C := rs.2.push { originAST := e, left := [.texpr e], right := rs.1 }
      (match callee with
       | .var "process" =>
         (match actualArgs with
          | a0 :: _ =>
            C.push { originAST := e, left := [.texpr (.var "ptr")],
                     right := [.texpr a0] }
          | [] => C)
       | _ => C)
    | _ =>
      let rs := funcCallRightSide callee C
      rs.2.push { originAST := e, left := [.texpr e], right := rs.1 }
  | _ => C

/-- `addObjectLiteralConstraint` (`constraint-collector.ts` 782–810):
object literal constrained to a `record` whose field types defer to the
value expressions. -/
def addObjectLiteralConstraint (e : Ast) (C : Collector) : Collector :=
  match e with
  | .objectLit props =>
    let fields := props.map (fun kv => (kv.1, TOperand.texpr kv.2))
    C.push { originAST := e, left := [.texpr e], right := [.trecord fields] }
  | _ => C

/-- `addPropertyAccessConstraint` (`constraint-collector.ts` 815–833): the
access result is linked to a fresh type variable only. -/
def addPropertyAccessConstraint (e : Ast) (C : Collector) : Collector :=
  match e with
  | .propertyAccess _ _ =>
    let tv := genTypeVarName C.typeVarCounter
    let C := { C with typeVarCounter := C.typeVarCounter + 1 }
    C.push { originAST := e, left := [.texpr e], right := [.texpr (.var tv)] }
  | _ => C

/-!
`addExpressionConstraint` / `processStatement(s)` — the fueled AST walk.
Fuel only bounds the recursion depth (the JS walk terminates because ASTs
are finite trees); all concrete runs below use a fuel larger than the AST
depth.  A raw array in expression position hits the
`if (!expression || !expression.type)` guard and is skipped.
-/

mutual

def addExpressionConstraint : Nat → SymTab → Ast → Collector → Collector
  | 0, _, _, C => C
  | fuel + 1, st, e, C =>
    match e with
    | .numberLit v => addNumberLiteralConstraint (.numberLit v) C
    | .binary op l r =>
      -- `addBinaryExpressionConstraint`: operands first, then the push
      let C := addExpressionConstraint fuel st l C
      let C := addExpressionConstraint fuel st r C
      addBinaryConstraintPush (.binary op l r) C
    | .inputExpr => addInputExpressionConstraint .inputExpr C
    | .alloc inner =>
      -- `addAllocExpressionConstraint`: argument first, then the push
      let C := addExpressionConstraint fuel st inner C
      addAllocConstraintPush (.alloc inner) C
    | .address v => addAddressExpressionConstraint st (.address v) C
    | .deref inner => addExpressionConstraint fuel st inner C
    | .nullLit n => addNullLiteralConstraint (.nullLit n) C
    | .var _ => C
    | .funcCall callee args =>
      -- `addFunctionCallConstraint`: arguments, then callee, then pushes
      let C := addExpressionConstraintList fuel st args C
      let C := addExpressionConstraint fuel st callee C
      addFunctionCallConstraintPush (.funcCall callee args) C
    | .unary op operand => addExpressionConstraint fuel st operand C
    | .objectLit props =>
      -- property values first, then `addObjectLiteralConstraint`
      let C := addPropValueConstraintList fuel st props C
      addObjectLiteralConstraint (.objectLit props) C
    | .propertyAccess o p =>
      let C := addExpressionConstraint fuel st o C
      addPropertyAccessConstraint (.propertyAccess o p) C
    | _ => C

def addExpressionConstraintList : Nat → SymTab → List Ast → Collector → Collector
  | _, _, [], C => C
  | fuel, st, e :: rest, C =>
    addExpressionConstraintList fuel st rest (addExpressionConstraint fuel st e C)

def addPropValueConstraintList :
    Nat → SymTab → List (String × Ast) → Collector → Collector
  | _, _, [], C => C
  | fuel, st, kv :: rest, C =>
    addPropValueConstraintList fuel st rest
      (addExpressionConstraint fuel st kv.2 C)

end

mutual

/-- `processStatement` (`constraint-collector.ts` 500–538), with
`processAssignmentStatement` etc. inlined at their dispatch sites. -/
def processStatement : Nat → SymTab → Ast → Collector → Collector
  | 0, _, _, C => C
  | fuel + 1, st, stmt, C =>
    match stmt with
    | .assignment v expr =>
      -- `processAssignmentStatement` (543–571)
      let C := addExpressionConstraint fuel st expr C
      let rightExpression :=
        match expr with
        | .nullLit _ => Ast.nullLit (some C.nullLiteralCounter)
        | _ => expr
      C.push { originAST := .assignment v expr,
               left := [.texpr ((alookup st v).getD (.var v))],
               right := [.texpr rightExpression] }
    | .output expr =>
      -- `processOutputStatement` (576–587)
      let C := addExpressionConstraint fuel st expr C
      C.push { originAST := .output expr, left := [.texpr expr],
               right := [.tint] }
    | .ifStmt cond thenS elseS? =>
      -- `processIfStatement` (592–624); the source flattens a nested
      -- `elseStatement` array, which the typed embedding cannot produce
      let C := addExpressionConstraint fuel st cond C
      (match elseS? with
       | some elseS =>
         let C := C.push { originAST := .ifStmt cond thenS elseS?,
                           left := [.texpr cond], right := [.tint] }
         let C := processStatementList fuel st thenS C
         processStatementList fuel st elseS C
       | none =>
         let C := C.push { originAST := .ifStmt cond thenS elseS?,
                           left := [.texpr cond], right := [.tint] }
         processStatementList fuel st thenS C)
    | .whileStmt cond body =>
      -- `processWhileStatement` (629–641)
      let C := addExpressionConstraint fuel st cond C
      let C := C.push { originAST := .whileStmt cond body,
                        left := [.texpr cond], right := [.tint] }
      processStatementList fuel st body C
    | .pointerAssign ptr v =>
      -- `processPointerAssignmentStatement` (646–666)
      let C := addExpressionConstraint fuel st ptr C
      let C := addExpressionConstraint fuel st v C
      C.push { originAST := .pointerAssign ptr v,
               left := [.texpr (.deref ptr)], right := [.texpr v] }
    | .directPropAssign _ _ v => addExpressionConstraint fuel st v C
    | .propAssign o _ v =>
      let C := addExpressionConstraint fuel st o C
      addExpressionConstraint fuel st v C
    | .returnStmt expr => addExpressionConstraint fuel st expr C
    | _ => C

def processStatementList : Nat → SymTab → List Ast → Collector → Collector
  | _, _, [], C => C
  | fuel, st, s :: rest, C =>
    processStatementList fuel st rest (processStatement fuel st s C)

end

/-- `processStatements` (`constraint-collector.ts` 488–495). -/
def processStatements (fuel : Nat) (st : SymTab) (stmts : List Ast)
    (C : Collector) : Collector :=
  processStatementList fuel st stmts C

/-!
## The type validator (`type-validator.ts`)

The validators query the store through `unionFind.getType`.  `getType`
routes through `find`, whose only store effects are path compression and
the auto-registration (with empty payload) of an unseen id — neither of
which changes any `getType` *result* (see `findAux_spec`/`getType_frame`
below: roots, ranks and payloads of registered ids are preserved, and a
freshly auto-registered id resolves to itself with payload `none`, exactly
what the next lookup of the same id returns).  The validators are therefore
embedded with the mutation-free resolution `getTypeRO`; the returned error
lists coincide with the source's.
-/

/-- Parent-chain resolution without mutation (the value `find` returns). -/
def rootAux : Nat → UF → String → String
  | fuel, uf, id =>
    match alookup uf.parent id with
    | none => id
    | some p =>
      if p = id then id
      else
        match fuel with
        | 0 => id
        | fuel' + 1 => rootAux fuel' uf p

/-- Read-only `getType`. -/
def getTypeRO (fuel : Nat) (uf : UF) (id : String) : Option CType :=
  payload uf (rootAux fuel uf id)

/-- The `.type` discriminant of a concrete type; a `CustomType` has none
(`undefined`). -/
def ctypeTag? : CType → Option String
  | .int => some "int"
  | .pointer _ => some "pointer"
  | .function .. => some "function"
  | .typevar _ => some "typevar"
  | .recursive .. => some "recursive"
  | .record _ => some "record"
  | .custom _ => none

/-- `.type` as interpolated into an error message (`undefined` rendered). -/
def ctypeTag (t : CType) : String := (ctypeTag? t).getD "undefined"

/-- `(expr as any).name` — only `Variable` and `FunctionDeclaration` nodes
carry a `name` property. -/
def astName? : Ast → Option String
  | .var n => some n
  | .funcDecl n _ _ _ _ => some n
  | _ => none

/-- `(expr as any).name || fallback`. -/
def astNameOrD (e : Ast) (d : String) : String := (astName? e).getD d

/-!
`JSON.stringify` of a `ConcreteType` literal (key order as constructed by
`toConcreteType`; `undefined` fields omitted).
-/

mutual

def jsonOfCType : Nat → CType → String
  | 0, _ => ""
  | fuel + 1, t =>
    match t with
    | .int => "\x7b\"type\":\"int\"\x7d"
    | .pointer none => "\x7b\"type\":\"pointer\"\x7d"
    | .pointer (some p) =>
      "\x7b\"type\":\"pointer\",\"pointsTo\":" ++ jsonOfCType fuel p ++ "\x7d"
    | .function ps rt =>
      "\x7b\"type\":\"function\",\"parameters\":[" ++ commaJoinCType fuel ps ++ "]" ++
        (match rt with
         | some r => ",\"returnType\":" ++ jsonOfCType fuel r
         | none => "") ++ "\x7d"
    | .typevar n => "\x7b\"type\":\"typevar\",\"name\":\"" ++ n ++ "\"\x7d"
    | .recursive v b? =>
      "\x7b\"type\":\"recursive\",\"variable\":\"" ++ v ++ "\"" ++
        (match b? with
         | some b => ",\"body\":" ++ jsonOfCType fuel b
         | none => "") ++ "\x7d"
    | .record fields =>
      "\x7b\"type\":\"record\",\"fields\":[" ++ commaJoinCField fuel fields ++ "]\x7d"
    | .custom e => "\x7b\"expression\":" ++ jsonOfAst fuel e ++ "\x7d"

def commaJoinCType : Nat → List CType → String
  | _, [] => ""
  | fuel, [t] => jsonOfCType fuel t
  | fuel, t :: rest => jsonOfCType fuel t ++ "," ++ commaJoinCType fuel rest

def commaJoinCField : Nat → List (String × CType) → String
  | _, [] => ""
  | fuel, [(n, t)] => "\x7b\"name\":\"" ++ n ++ "\",\"fieldType\":" ++ jsonOfCType fuel t ++ "\x7d"
  | fuel, (n, t) :: rest =>
    "\x7b\"name\":\"" ++ n ++ "\",\"fieldType\":" ++ jsonOfCType fuel t ++ "\x7d," ++
      commaJoinCField fuel rest

end

/-- `getTypeId` applied to a `ConcreteType` value (the validators call it on
`.pointsTo`/`.returnType` fields): a `CustomType` takes the `expr_` route,
a type literal the `type_` route. -/
def getTypeIdOfCType (fuel : Nat) (t : CType) : String :=
  match t with
  | .custom e => getTypeId fuel (.texpr e) none
  | _ => "type_" ++ jsonOfCType fuel t

/-- `validateSingleDereference` (`type-validator.ts` 104–164). -/
def validateSingleDereference (fuel : Nat) (uf : UF) (dereferenceExpr : Ast) :
    List String :=
  match dereferenceExpr with
  | .deref targetExpr =>
    (match targetExpr with
     | .deref innerTargetExpr =>
       -- nested `**ptr`
       let innerTargetId := getTypeId fuel (.texpr innerTargetExpr) none
       (match getTypeRO fuel uf innerTargetId with
        | none => []
        | some innerTargetType =>
          match innerTargetType with
          | .pointer pointsTo? =>
            (match pointsTo? with
             | none => []
             | some pointsTo =>
               match pointsTo with
               | .custom _ =>
                 (match getTypeRO fuel uf (getTypeIdOfCType fuel pointsTo) with
                  | some actualPointsToType =>
                    if ctypeTag? actualPointsToType ≠ some "pointer" then
                      let exprName := astNameOrD innerTargetExpr "expression"
                      ["타입 오류: **" ++ exprName ++ "에서 " ++ exprName ++
                        "은 pointer(pointer(...)) 타입이어야 하지만 pointer(" ++
                        ctypeTag actualPointsToType ++ ") 타입입니다."]
                    else []
                  | none => [])
               | _ =>
                 if ctypeTag? pointsTo ≠ some "pointer" then
                   let exprName := astNameOrD innerTargetExpr "expression"
                   ["타입 오류: **" ++ exprName ++ "에서 " ++ exprName ++
                     "은 pointer(pointer(...)) 타입이어야 하지만 pointer(" ++
                     ctypeTag pointsTo ++ ") 타입입니다."]
                 else [])
          | _ =>
            let exprName := astNameOrD innerTargetExpr "expression"
            ["타입 오류: **" ++ exprName ++ "에서 " ++ exprName ++
              "은 pointer(pointer(...)) 타입이어야 하지만 " ++
              ctypeTag innerTargetType ++ " 타입입니다."])
     | _ =>
       -- plain `*ptr`
       let targetId := getTypeId fuel (.texpr targetExpr) none
       (match getTypeRO fuel uf targetId with
        | some targetType =>
          if ctypeTag? targetType ≠ some "pointer" then
            let exprName := astNameOrD targetExpr "expression"
            ["타입 오류: " ++ exprName ++ "은 " ++ ctypeTag targetType ++
              " 타입이므로 역참조할 수 없습니다."]
          else []
        | none => []))
  | _ => []

/-- Right-side scan of an assignment constraint for dereferences. -/
def vdRightItemsAssign (fuel : Nat) (uf : UF) : List TOperand → List String
  | [] => []
  | item :: rest =>
    (match item with
     | .texpr (Ast.deref e) => validateSingleDereference fuel uf (.deref e)
     | _ => []) ++ vdRightItemsAssign fuel uf rest

/-- Right-side scan of a function-declaration constraint: a `function` type
literal whose `returnType.expression` is a dereference. -/
def vdRightItemsFuncDecl (fuel : Nat) (uf : UF) : List TOperand → List String
  | [] => []
  | item :: rest =>
    (match item with
     | .tfunction _ (some (.texpr (Ast.deref e))) =>
       validateSingleDereference fuel uf (.deref e)
     | _ => []) ++ vdRightItemsFuncDecl fuel uf rest

/-- `validateDereferenceExpressions` (`type-validator.ts` 58–99). -/
def validateDereferenceExpressions (fuel : Nat) :
    List Constraint → UF → List String
  | [], _ => []
  | c :: rest, uf =>
    (match c.originAST with
     | .assignment .. => vdRightItemsAssign fuel uf c.right
     | _ => []) ++
    (match c.originAST with
     | .funcDecl .. => vdRightItemsFuncDecl fuel uf c.right
     | _ => []) ++
    validateDereferenceExpressions fuel rest uf

/-- Inner value loop of `validatePointerAssignments`. -/
def vpaRight (fuel : Nat) (uf : UF) (ptrExpr : Ast) (pointsTo? : Option CType) :
    List TOperand → List String
  | [] => []
  | item :: rest =>
    (match item with
     | .texpr valueExpr =>
       (match getTypeRO fuel uf (getTypeId fuel (.texpr valueExpr) none), pointsTo? with
        | some valueType, some expected0 =>
          let expectedType :=
            match expected0 with
            | .custom _ =>
              (match getTypeRO fuel uf (getTypeIdOfCType fuel expected0) with
               | some actualExpectedType => actualExpectedType
               | none => expected0)
            | _ => expected0
          if ctypeTag? valueType ≠ ctypeTag? expectedType then
            let ptrName := astNameOrD ptrExpr "pointer"
            let valueName := astNameOrD valueExpr "value"
            ["타입 오류: *" ++ ptrName ++ " = " ++ valueName ++ "에서 " ++
              ctypeTag expectedType ++ " 위치에 " ++ ctypeTag valueType ++
              " 타입을 할당할 수 없습니다."]
          else []
        | _, _ => [])
     | _ => []) ++ vpaRight fuel uf ptrExpr pointsTo? rest

/-- Left scan of `validatePointerAssignments`: only pointers with a resolved
`pointer` type are checked. -/
def vpaLeft (fuel : Nat) (uf : UF) (right : List TOperand) :
    List TOperand → List String
  | [] => []
  | item :: rest =>
    (match item with
     | .texpr ptrExpr =>
       (match getTypeRO fuel uf (getTypeId fuel (.texpr ptrExpr) none) with
        | some (.pointer pointsTo?) => vpaRight fuel uf ptrExpr pointsTo? right
        | _ => [])
     | _ => []) ++ vpaLeft fuel uf right rest

/-- `validatePointerAssignments` (`type-validator.ts` 170–224): for
`*p = v`, a shallow top-level tag comparison between `v`'s type and `p`'s
target type. -/
def validatePointerAssignments (fuel : Nat) :
    List Constraint → UF → List String
  | [], _ => []
  | c :: rest, uf =>
    (match c.originAST with
     | .pointerAssign _ _ => vpaLeft fuel uf c.right c.left
     | _ => []) ++ validatePointerAssignments fuel rest uf

/-- Left-item scan of `validateAllocExpressions`. -/
def vaLeft (fuel : Nat) (uf : UF) : List TOperand → List String
  | [] => []
  | item :: rest =>
    (match item with
     | .texpr (Ast.alloc argExpr) =>
       (match getTypeRO fuel uf (getTypeId fuel (.texpr argExpr) none) with
        | some argType =>
          if ctypeTag? argType ≠ some "int" then
            ["타입 오류: alloc의 인자 " ++ astNameOrD argExpr "expression" ++
              "은 int 타입이어야 하지만 " ++ ctypeTag argType ++ " 타입입니다."]
          else []
        | none => [])
     | _ => []) ++ vaLeft fuel uf rest

/-- `validateAllocExpressions` (`type-validator.ts` 230–259): `alloc E`
requires `E` to resolve to `int`. -/
def validateAllocExpressions (fuel : Nat) :
    List Constraint → UF → List String
  | [], _ => []
  | c :: rest, uf => vaLeft fuel uf c.left ++ validateAllocExpressions fuel rest uf

/-- `getOperandType` (`type-validator.ts` 308–330): a call operand resolves
through the callee's declared return type. -/
def getOperandType (fuel : Nat) (uf : UF) (operand : Ast) : Option CType :=
  match operand with
  | .funcCall callee _ =>
    (match getTypeRO fuel uf (getTypeId fuel (.texpr callee) none) with
     | some (.function _ rt?) =>
       (match rt? with
        | some rt =>
          (match rt with
           | .custom _ => getTypeRO fuel uf (getTypeIdOfCType fuel rt)
           | _ => some rt)
        | none => none)
     | _ => none)
  | _ => getTypeRO fuel uf (getTypeId fuel (.texpr operand) none)

/-- `getOperandName` (`type-validator.ts` 335–340). -/
def getOperandName (operand : Ast) : String :=
  match operand with
  | .funcCall callee _ => "함수 " ++ (astName? callee).getD "unknown" ++ "()의 반환값"
  | _ => astNameOrD operand "operand"

/-- One operand check of `validateBinaryExpressions`. -/
def vbOne (fuel : Nat) (uf : UF) (operand : Ast) : List String :=
  match getOperandType fuel uf operand with
  | some t =>
    if ctypeTag? t ≠ some "int" then
      ["타입 오류: 이진 연산에서 " ++ getOperandName operand ++
        "은 int 타입이어야 하지만 " ++ ctypeTag t ++ " 타입입니다."]
    else []
  | none => []

/-- `validateBinaryExpressions` (`type-validator.ts` 265–303). -/
def validateBinaryExpressions (fuel : Nat) :
    List Constraint → UF → List String
  | [], _ => []
  | c :: rest, uf =>
    (match c.originAST with
     | .binary _ l r => vbOne fuel uf l ++ vbOne fuel uf r
     | _ => []) ++ validateBinaryExpressions fuel rest uf

/-- `argument ${i+1}` fallback name. -/
def argNameOrD (e : Ast) (i : Nat) : String :=
  (astName? e).getD ("argument " ++ toString i)

/-- The per-argument check shared by both loops of `validateFunctionCalls`
(the error template is identical in both). -/
def vfArgCheck (fuel : Nat) (uf : UF) (funcName : String) (i : Nat)
    (argExpr : Ast) : List String :=
  match getTypeRO fuel uf (getTypeId fuel (.texpr argExpr) none) with
  | some argType =>
    if funcName = "add" && ctypeTag? argType ≠ some "int" then
      ["타입 오류: 함수 " ++ funcName ++ "의 " ++ toString (i + 1) ++
        "번째 인자 " ++ argNameOrD argExpr (i + 1) ++
        "은 int 타입이어야 하지만 " ++ ctypeTag argType ++ " 타입입니다."]
    else []
  | none => []

/-- Argument loop of the first `validateFunctionCalls` pass (raw
`arguments`, no flattening). -/
def vfArgsLoop (fuel : Nat) (uf : UF) (funcName : String) :
    Nat → List Ast → List String
  | _, [] => []
  | i, argExpr :: rest =>
    vfArgCheck fuel uf funcName i argExpr ++ vfArgsLoop fuel uf funcName (i + 1) rest

/-- Left-item scan of the first `validateFunctionCalls` pass: callability of
the callee, plus the `add`-specific argument checks. -/
def vfLeft (fuel : Nat) (uf : UF) : List TOperand → List String
  | [] => []
  | item :: rest =>
    (match item with
     | .texpr (Ast.funcCall callee args) =>
       (match getTypeRO fuel uf (getTypeId fuel (.texpr callee) none) with
        | some calleeType =>
          if ctypeTag? calleeType ≠ some "function" &&
              ctypeTag? calleeType ≠ some "recursive" then
            ["타입 오류: " ++ astNameOrD callee "expression" ++ "은 " ++
              ctypeTag calleeType ++ " 타입이므로 함수로 호출할 수 없습니다."]
          else []
        | none => []) ++
       vfArgsLoop fuel uf ((astName? callee).getD "unknown") 0 args
     | _ => []) ++ vfLeft fuel uf rest

/-- First pass of `validateFunctionCalls` (`type-validator.ts` 351–399). -/
def validateFunctionCallsLoop1 (fuel : Nat) :
    List Constraint → UF → List String
  | [], _ => []
  | c :: rest, uf =>
    vfLeft fuel uf c.left ++ validateFunctionCallsLoop1 fuel rest uf

/-- One constraint of the second `validateFunctionCalls` pass (`add`
special-case over the flattened argument list, first two arguments). -/
def vfLoop2One (fuel : Nat) (uf : UF) (c : Constraint) : List String :=
  match c.originAST with
  | .funcCall callee args =>
    let args2 :=
      match args with
      | .arr elems :: _ => elems
      | _ => args
    (match astName? callee with
     | some "add" =>
       (match args2 with
        | a0 :: a1 :: _ =>
          vfArgCheck fuel uf "add" 0 a0 ++ vfArgCheck fuel uf "add" 1 a1
        | _ => [])
     | _ => [])
  | _ => []

/-- Second pass of `validateFunctionCalls` (`type-validator.ts` 401–432). -/
def validateFunctionCallsLoop2 (fuel : Nat) :
    List Constraint → UF → List String
  | [], _ => []
  | c :: rest, uf =>
    vfLoop2One fuel uf c ++ validateFunctionCallsLoop2 fuel rest uf

/-- `validateFunctionCalls` (`type-validator.ts` 345–435): both passes, in
order. -/
def validateFunctionCalls (fuel : Nat) (cs : List Constraint) (uf : UF) :
    List String :=
  validateFunctionCallsLoop1 fuel cs uf ++ validateFunctionCallsLoop2 fuel cs uf

/-- One constraint of `validatePropertyAccess` (`type-validator.ts`
524–563): a resolved non-record object type is an error. -/
def vpOne (fuel : Nat) (uf : UF) (c : Constraint) : List String :=
  match c.originAST with
  | .propertyAccess objectExpr propertyName =>
    (match getTypeRO fuel uf (getTypeId fuel (.texpr objectExpr) none) with
     | some objectType =>
       (match objectType with
        | .record _ => []
        | _ =>
          ["타입 오류: " ++ ctypeTag objectType ++
            " 타입에는 필드 접근을 할 수 없습니다. '" ++ propertyName ++
            "' 필드에 접근하려면 Record 타입이어야 합니다."])
     | none => [])
  | _ => []

def validatePropertyAccess (fuel : Nat) :
    List Constraint → UF → List String
  | [], _ => []
  | c :: rest, uf => vpOne fuel uf c ++ validatePropertyAccess fuel rest uf

/-- `getValueType` (`type-validator.ts` 494–518). -/
def getValueType (fuel : Nat) (uf : UF) (expr : Ast) : Option CType :=
  match expr with
  | .address _ => some (.pointer (some .int))
  | .binary .. => some .int
  | .var name =>
    let valueType := getTypeRO fuel uf (getTypeId fuel (.texpr expr) none)
    if name = "ptr" && valueType.isNone then some (.pointer (some .int))
    else valueType
  | _ => getTypeRO fuel uf (getTypeId fuel (.texpr expr) none)

/-- `left.find(item => item.expression.type === "Variable")`. -/
def firstVarLeft : List TOperand → Option String
  | [] => none
  | .texpr (Ast.var n) :: _ => some n
  | _ :: rest => firstVarLeft rest

/-- `right.find(item => "expression" in item)`. -/
def firstExprRight : List TOperand → Option Ast
  | [] => none
  | .texpr e :: _ => some e
  | _ :: rest => firstExprRight rest

/-- Collection phase of `validateVariableTypeConsistency`: per assignment
constraint, append the assigned value's resolved type to the variable's
bucket. -/
def collectVariableAssignments (fuel : Nat) (uf : UF) :
    List Constraint → List (String × List CType) → List (String × List CType)
  | [], m => m
  | c :: rest, m =>
    let m' :=
      match c.originAST with
      | .assignment .. =>
        (match firstVarLeft c.left, firstExprRight c.right with
         | some varName, some valueExpr =>
           (match getValueType fuel uf valueExpr with
            | some t => aset m varName ((alookup m varName).getD [] ++ [t])
            | none => m)
         | _, _ => m)
      | _ => m
    collectVariableAssignments fuel uf rest m'

/-- JS `new Set(...)` iteration order: first occurrence wins. -/
def dedupeKeepFirst : List String → List String
  | [] => []
  | s :: rest => s :: dedupeKeepFirst (rest.filter (· ≠ s))
termination_by l => l.length
decreasing_by
  simp
  exact Nat.lt_succ_of_le (List.length_filter_le _ _)

/-- Emission phase of `validateVariableTypeConsistency`: more than one
distinct type tag across a variable's assignments is an error. -/
def vvEmit : List (String × List CType) → List String
  | [] => []
  | (varName, types) :: rest =>
    (if types.length > 1 then
       let typeSet := dedupeKeepFirst (types.map ctypeTag)
       if typeSet.length > 1 then
         ["타입 오류: 변수 " ++ varName ++
           "에 서로 다른 타입의 값이 할당되었습니다: " ++
           String.intercalate ", " typeSet]
       else []
     else []) ++ vvEmit rest

/-- `validateVariableTypeConsistency` (`type-validator.ts` 441–489). -/
def validateVariableTypeConsistency (fuel : Nat) (cs : List Constraint)
    (uf : UF) : List String :=
  vvEmit (collectVariableAssignments fuel uf cs [])

/-- `validateAllTypes` (`type-validator.ts` 22–52): run every check over the
full constraint list, pushing all errors into one flat list. -/
def validateAllTypes (fuel : Nat) (cs : List Constraint) (uf : UF) :
    List String :=
  let errors : List String := []
  let errors := errors ++ validateDereferenceExpressions fuel cs uf
  let errors := errors ++ validatePointerAssignments fuel cs uf
  let errors := errors ++ validateAllocExpressions fuel cs uf
  let errors := errors ++ validateBinaryExpressions fuel cs uf
  let errors := errors ++ validateFunctionCalls fuel cs uf
  let errors := errors ++ validatePropertyAccess fuel cs uf
  let errors := errors ++ validateVariableTypeConsistency fuel cs uf
  errors

/-!
## Record compatibility: characterization (for C2)
-/

theorem eq_of_mem_nodup_keys {β : Type} {l : List (String × β)}
    (hnd : (l.map Prod.fst).Nodup) {p q : String × β}
    (hp : p ∈ l) (hq : q ∈ l) (h : p.1 = q.1) : p = q := by
  induction l with
  | nil => cases hp
  | cons a t ih =>
    rw [List.map_cons, List.nodup_cons] at hnd
    rcases List.mem_cons.mp hp with rfl | hp'
    · rcases List.mem_cons.mp hq with rfl | hq'
      · rfl
      · exact absurd (h ▸ List.mem_map_of_mem Prod.fst hq') hnd.1
    · rcases List.mem_cons.mp hq with rfl | hq'
      · exact absurd (h ▸ List.mem_map_of_mem Prod.fst hp') hnd.1
      · exact ih hnd.2 hp' hq'

/-- The field-name set of a record (§3: "unordered by name, each name unique
within one record value"). -/
def fieldNames (fs : List (String × CType)) : List String := fs.map Prod.fst

/-- "with per-field type compatibility": every field name shared by the two
records carries pairwise-compatible types. -/
def sharedFieldsCompatible (f1 f2 : List (String × CType)) : Prop :=
  ∀ p ∈ f1, ∀ q ∈ f2, p.1 = q.1 → isCompatible p.2 q.2 = true

/-- The spec's wording of record compatibility: "compatible if either
record's field set is a subset of the other's (by name, with per-field type
compatibility)". -/
def specRecordCompatible (f1 f2 : List (String × CType)) : Prop :=
  (fieldNames f1 ⊆ fieldNames f2 ∧ sharedFieldsCompatible f1 f2) ∨
  (fieldNames f2 ⊆ fieldNames f1 ∧ sharedFieldsCompatible f2 f1)

theorem fieldsSubset_iff (f1 f2 : List (String × CType))
    (h2 : (fieldNames f2).Nodup) :
    fieldsSubset f1 f2 = true ↔
      (fieldNames f1 ⊆ fieldNames f2 ∧ sharedFieldsCompatible f1 f2) := by
  induction f1 with
  | nil =>
    simp [fieldsSubset, fieldNames, sharedFieldsCompatible]
  | cons hd rest ih =>
    obtain ⟨n, t⟩ := hd
    rw [fieldsSubset, Bool.and_eq_true]
    constructor
    · rintro ⟨hfound, hrest⟩
      obtain ⟨hsub, hshared⟩ := ih.mp hrest
      cases hq : List.find? (fun f => f.1 = n) f2 with
      | none => rw [hq] at hfound; simp [foundFieldCompatible] at hfound
      | some q =>
        rw [hq] at hfound
        simp only [foundFieldCompatible] at hfound
        have hqmem := List.mem_of_find?_eq_some hq
        have hqn : q.1 = n := by simpa using List.find?_some hq
        refine ⟨?_, ?_⟩
        · intro x hx
          rcases List.mem_cons.mp hx with rfl | hx'
          · exact hqn ▸ List.mem_map_of_mem Prod.fst hqmem
          · exact hsub hx'
        · intro p hp q' hq' hpq'
          rcases List.mem_cons.mp hp with rfl | hp'
          · have heq : q' = q := by
              refine eq_of_mem_nodup_keys h2 hq' hqmem ?_
              rw [← hpq']
              exact hqn.symm
            subst heq
            exact hfound
          · exact hshared p hp' q' hq' hpq'
    · rintro ⟨hsub, hshared⟩
      have hn : n ∈ fieldNames f2 := hsub (List.mem_cons_self _ _)
      obtain ⟨q0, hq0mem, hq0n⟩ := List.mem_map.mp hn
      have hsome : (List.find? (fun f => f.1 = n) f2).isSome := by
        rw [List.find?_isSome]
        exact ⟨q0, hq0mem, by simp [hq0n]⟩
      cases hq : List.find? (fun f => f.1 = n) f2 with
      | none => rw [hq] at hsome; simp at hsome
      | some q =>
        have hqmem := List.mem_of_find?_eq_some hq
        have hqn : q.1 = n := by simpa using List.find?_some hq
        refine ⟨?_, ?_⟩
        · simp only [foundFieldCompatible]
          exact hshared (n, t) (List.mem_cons_self _ _) q hqmem hqn.symm
        · refine ih.mpr ⟨?_, ?_⟩
          · intro x hx
            exact hsub (List.mem_cons_of_mem _ hx)
          · intro p hp q' hq' hpq'
            exact hshared p (List.mem_cons_of_mem _ hp) q' hq' hpq'

theorem isCompatible_record (f1 f2 : List (String × CType)) :
    isCompatible (.record f1) (.record f2) =
      (fieldsSubset f1 f2 || fieldsSubset f2 f1) := by
  simp [isCompatible]

/-- `Record{x:Int}`. -/
def recXint : CType := .record [("x", .int)]
/-- `Record{x:Int,y:Int}`. -/
def recXYint : CType := .record [("x", .int), ("y", .int)]
/-- `Record{x:Int,y:Pointer(Int)}`. -/
def recXYptr : CType := .record [("x", .int), ("y", .pointer (some .int))]

/-- A store with two singleton classes carrying `Record{x:Int,y:Int}` and
`Record{x:Int,y:Pointer(Int)}`. -/
def recStore : UF :=
  ⟨[("A", "A"), ("B", "B")], [("A", 0), ("B", 0)],
   [("A", some recXYint), ("B", some recXYptr)]⟩

/-- C2: `isCompatible` on two records is structural sub-typing: it returns
`true` iff one record's field set is a subset of the other's by name with
every shared field's types pairwise compatible (record field names are
unique within a record, §3).  In particular `Record{x:Int}` is compatible
with `Record{x:Int,y:Int}` and with `Record{x:Int,y:Pointer(Int)}`, but
`Record{x:Int,y:Int}` and `Record{x:Int,y:Pointer(Int)}` are incompatible
(shared field `y` disagrees), so a union of two classes carrying those two
payloads fails. -/
theorem claim_C2_record_structural_subtyping (f1 f2 : List (String × CType))
    (h1 : (fieldNames f1).Nodup) (h2 : (fieldNames f2).Nodup) :
    (isCompatible (.record f1) (.record f2) = true ↔
      specRecordCompatible f1 f2) ∧
    isCompatible recXint recXYint = true ∧
    isCompatible recXint recXYptr = true ∧
    isCompatible recXYint recXYptr = false ∧
    (union 2 recStore "A" "B").1 = false := by
  have hfail : isCompatible recXYint recXYptr = false := by
    simp [recXYint, recXYptr, isCompatible, fieldsSubset, foundFieldCompatible,
      List.find?, hasTypeVariable]
  refine ⟨?_, ?_, ?_, hfail, ?_⟩
  · rw [isCompatible_record, Bool.or_eq_true,
      fieldsSubset_iff f1 f2 h2, fieldsSubset_iff f2 f1 h1]
    rfl
  · simp [recXint, recXYint, isCompatible, fieldsSubset, foundFieldCompatible,
      List.find?]
  · simp [recXint, recXYptr, isCompatible, fieldsSubset, foundFieldCompatible,
      List.find?]
  · have hfail' := hfail
    simp only [recXYint, recXYptr] at hfail'
    simp [union, findAux, recStore, payload, alookup, CType.isTypevar,
      recXYint, recXYptr, hfail']

/-- Witness for C2 at `f1 = [("x", Int)]`, `f2 = [("x", Int), ("y", Int)]`. -/
theorem claim_C2_witness :
    (fieldNames [("x", CType.int)]).Nodup ∧
    (fieldNames [("x", CType.int), ("y", CType.int)]).Nodup ∧
    ((isCompatible (.record [("x", CType.int)])
        (.record [("x", CType.int), ("y", CType.int)]) = true ↔
      specRecordCompatible [("x", CType.int)]
        [("x", CType.int), ("y", CType.int)]) ∧
     isCompatible recXint recXYint = true ∧
     isCompatible recXint recXYptr = true ∧
     isCompatible recXYint recXYptr = false ∧
     (union 2 recStore "A" "B").1 = false) :=
  ⟨by decide, by decide,
   claim_C2_record_structural_subtyping [("x", CType.int)]
     [("x", CType.int), ("y", CType.int)] (by decide) (by decide)⟩

/-- C3: `isCompatible(Pointer(T), Int)` and `isCompatible(Int, Pointer(T))`
are `false` for every `T` — absent, concrete, or containing type variables
(the pointer/int exclusion is the first check of `isCompatible`). -/
theorem claim_C3_pointer_int_exclusion :
    ∀ T : Option CType,
      isCompatible (.pointer T) .int = false ∧
      isCompatible .int (.pointer T) = false := by
  intro T
  constructor <;> simp [isCompatible]

/-!
## C4: the `Recursive`-vs-`Function` payload preference
-/

/-- `μt.() → int`. -/
def recFnType : CType := .recursive "t" (some (.function [] (some .int)))
/-- `() → int`, structurally compatible with `recFnType`. -/
def fnType : CType := .function [] (some .int)

/-- A store where the `Recursive`-payload class `a` has rank 0 and the
compatible `Function`-payload class `b` has rank 1, so union-by-rank merges
`a` under `b`. -/
def c4Store : UF :=
  ⟨[("a", "a"), ("b", "b")], [("a", 0), ("b", 1)],
   [("a", some recFnType), ("b", some fnType)]⟩

/-- C4 evaluation at the failing input: the two payloads are structurally
compatible and `union` merges the classes, but the surviving root `b` keeps
the `Function` payload — the `Recursive` wrapper is lost whenever the
recursive side loses the rank comparison, although `union-find.ts` 77–81
("recursive type 유지") is meant to retain it (it rewrites the about-to-lose
root's own payload, which `selectBetterType` then ignores). -/
theorem claim_C4_recursive_wrapper_lost_eval :
    isCompatible recFnType fnType = true ∧
    (union 5 c4Store "a" "b").1 = true ∧
    alookup (union 5 c4Store "a" "b").2.parent "a" = some "b" ∧
    payload (union 5 c4Store "a" "b").2 "b" = some fnType := by
  have hcompat : isCompatible recFnType fnType = true := by
    simp [recFnType, fnType, isCompatible, paramsCompatible]
  have hcompat' := hcompat
  simp only [recFnType, fnType] at hcompat'
  refine ⟨hcompat, ?_, ?_, ?_⟩ <;>
    simp [union, findAux, c4Store, payload, alookup, CType.isTypevar,
      recFnType, fnType, hcompat', setTypeInfo, aset, selectBetterType]

/-!
## C5: positional pairing with the shorter side cycling
-/

/-- The per-pair union/error step sequence, as a list-driven fold. -/
def runPairs (fuel : Nat) (origin : Ast) :
    List (String × String) → UF → List String → UF × List String
  | [], uf, es => (uf, es)
  | (a, b) :: rest, uf, es =>
    let u := union fuel uf a b
    runPairs fuel origin rest u.2
      (if u.1 then es else es ++ [errUnifyMsg origin a b])

/-- The pair at position `i` is `(left[i % |left|], right[i % |right|])`. -/
def unifiedPairs (l r : List String) : List (String × String) :=
  (List.range (max l.length r.length)).map fun i =>
    (l.getD (i % l.length) "", r.getD (i % r.length) "")

theorem get?_eq_some_getD (l : List String) (n : Nat) (h : n < l.length) :
    l.get? n = some (l.getD n "") := by
  induction l generalizing n with
  | nil => simp at h
  | cons hd t ih =>
    cases n with
    | zero => simp
    | succ m =>
      simp only [List.get?_cons_succ, List.getD_cons_succ]
      exact ih m (by simpa using h)

theorem getD_mem (l : List String) (n : Nat) (h : n < l.length) :
    l.getD n "" ∈ l := by
  have := get?_eq_some_getD l n h
  exact List.get?_mem this

theorem unifyPairsFrom_eq_runPairs (fuel : Nat) (origin : Ast)
    (l r : List String) (hl : l ≠ []) (hr : r ≠ [])
    (hnl : "" ∉ l) (hnr : "" ∉ r) :
    ∀ k i uf es,
      unifyPairsFrom fuel origin l r k i uf es =
        runPairs fuel origin
          ((List.range' i k).map fun j =>
            (l.getD (j % l.length) "", r.getD (j % r.length) "")) uf es := by
  intro k
  induction k with
  | zero =>
    intro i uf es
    simp [unifyPairsFrom, runPairs]
  | succ m ih =>
    intro i uf es
    have hll : 0 < l.length := List.length_pos.mpr hl
    have hrl : 0 < r.length := List.length_pos.mpr hr
    have hml : i % l.length < l.length := Nat.mod_lt _ hll
    have hmr : i % r.length < r.length := Nat.mod_lt _ hrl
    rw [unifyPairsFrom]
    rw [get?_eq_some_getD l _ hml, get?_eq_some_getD r _ hmr]
    have hne1 : l.getD (i % l.length) "" ≠ "" := fun h => hnl (h ▸ getD_mem l _ hml)
    have hne2 : r.getD (i % r.length) "" ≠ "" := fun h => hnr (h ▸ getD_mem r _ hmr)
    simp only [hne1, hne2, ne_eq, not_false_eq_true, decide_True, Bool.and_self,
      if_true]
    rw [List.range'_succ, List.map_cons, runPairs]
    rw [ih (i + 1)]

/-- C5: for non-empty operand lists (solver-produced ids are never the empty
string), `unifyConstraintPairs` performs exactly the pair sequence whose
`i`-th element is `(left[i % |left|], right[i % |right|])` for
`i < max(|left|, |right|)` — the shorter side cycles, every position of the
longer side is covered, and whenever `i < |left|` the pair is
`(left[i], right[i % |right|])`. -/
theorem claim_C5_positional_cycling_unification (fuel : Nat) (origin : Ast)
    (l r : List String) (uf : UF) (es : List String)
    (hl : l ≠ []) (hr : r ≠ []) (hnl : "" ∉ l) (hnr : "" ∉ r) :
    unifyConstraintPairs fuel origin l r uf es =
      runPairs fuel origin (unifiedPairs l r) uf es ∧
    (unifiedPairs l r).length = max l.length r.length ∧
    (∀ i, i < max l.length r.length →
      (unifiedPairs l r).get? i =
        some (l.getD (i % l.length) "", r.getD (i % r.length) "")) ∧
    (∀ i, i < l.length →
      (unifiedPairs l r).get? i = some (l.getD i "", r.getD (i % r.length) "")) := by
  refine ⟨?_, ?_, ?_, ?_⟩
  · rw [unifyConstraintPairs,
      unifyPairsFrom_eq_runPairs fuel origin l r hl hr hnl hnr
        (max l.length r.length) 0 uf es]
    rw [unifiedPairs, List.range_eq_range']
  · simp [unifiedPairs]
  · intro i hi
    simp only [unifiedPairs, List.get?_eq_getElem?, List.getElem?_map,
      List.getElem?_range hi, Option.map_some']
  · intro i hi
    have hmax : i < max l.length r.length := lt_of_lt_of_le hi (le_max_left _ _)
    simp only [unifiedPairs, List.get?_eq_getElem?, List.getElem?_map,
      List.getElem?_range hmax, Option.map_some', Nat.mod_eq_of_lt hi]

/-- Witness for C5 at `left = [L0, L1, L2]`, `right = [R0]`. -/
theorem claim_C5_witness :
    (["L0", "L1", "L2"] : List String) ≠ [] ∧ (["R0"] : List String) ≠ [] ∧
    "" ∉ (["L0", "L1", "L2"] : List String) ∧ "" ∉ (["R0"] : List String) ∧
    (unifyConstraintPairs 3 .inputExpr ["L0", "L1", "L2"] ["R0"] UF.empty [] =
      runPairs 3 .inputExpr (unifiedPairs ["L0", "L1", "L2"] ["R0"]) UF.empty [] ∧
     (unifiedPairs ["L0", "L1", "L2"] ["R0"]).length = max 3 1 ∧
     (∀ i, i < max 3 1 →
       (unifiedPairs ["L0", "L1", "L2"] ["R0"]).get? i =
         some ((["L0", "L1", "L2"] : List String).getD (i % 3) "",
           (["R0"] : List String).getD (i % 1) "")) ∧
     (∀ i, i < 3 →
       (unifiedPairs ["L0", "L1", "L2"] ["R0"]).get? i =
         some ((["L0", "L1", "L2"] : List String).getD i "",
           (["R0"] : List String).getD (i % 1) ""))) :=
  ⟨by decide, by decide, by decide, by decide,
   claim_C5_positional_cycling_unification 3 .inputExpr ["L0", "L1", "L2"]
     ["R0"] UF.empty [] (by decide) (by decide) (by decide) (by decide)⟩

/-- C9: `makeSet(id, t)` unconditionally resets `parent(id) = id`,
`rank(id) = 0` and the stored payload to `t` — on every store, including
one where `id` is already registered and merged into a larger class — and a
subsequent `find(id)` returns `id` itself with the store unchanged. -/
theorem claim_C9_makeSet_unconditional_reregistration (uf : UF) (id : String)
    (t : Option CType) :
    alookup (makeSet uf id t).parent id = some id ∧
    alookup (makeSet uf id t).rank id = some 0 ∧
    alookup (makeSet uf id t).typeInfo id = some t ∧
    ∀ fuel, findAux fuel (makeSet uf id t) id = (id, makeSet uf id t) := by
  refine ⟨?_, ?_, ?_, ?_⟩
  · simp [makeSet, alookup_aset_self]
  · simp [makeSet, alookup_aset_self]
  · simp [makeSet, alookup_aset_self]
  · intro fuel
    rw [findAux]
    simp [makeSet, alookup_aset_self]

/-!
## C6: per-occurrence identity of `null` literals
-/

/-- Symbol table of a function with locals `x`, `y`. -/
def nullProgramSt : SymTab := [("x", .var "x"), ("y", .var "y")]

/-- The claim's program fragment `x = null; y = null;`. -/
def nullProgram : List Ast :=
  [.assignment "x" (.nullLit none), .assignment "y" (.nullLit none)]

/-- A freshly `reset()` collector. -/
def emptyCollector : Collector := ⟨[], 0, 0, none⟩

def nullCollector : Collector :=
  processStatements 10 nullProgramSt nullProgram emptyCollector

/-- Registration + unification pass over the collected constraints (the
remaining solver passes only inspect `FunctionDeclaration`/`FunctionCall`/
`ObjectLiteral`/`PropertyAccess` constraints, none of which this program
produces). -/
def nullUF : UF := registerTypesInUnionFind 10 nullCollector.constraints UF.empty

def nullRun : UF × List String :=
  unifyConstraints 10 nullCollector.constraints nullUF []

def xVarId : String := getTypeId 10 (.texpr (.var "x")) none
def yVarId : String := getTypeId 10 (.texpr (.var "y")) none

/-- C6: `addNullLiteralConstraint` gives every `null` occurrence a distinct
identity via the monotonically increasing `nullLiteralCounter` — the pushed
constraint ties `expr_null_<counter>` (an id independent of fuel and of the
context salt) to `Pointer(freshTypeVariable)` — and consequently, for the
program `x = null; y = null;`, the two null occurrences and the variables
`x` and `y` end up in distinct equivalence classes after the unification
pass, with no errors. -/
theorem claim_C6_null_distinct_identity :
    (∀ (C : Collector) (e : Ast),
      (addNullLiteralConstraint e C).nullLiteralCounter =
        C.nullLiteralCounter + 1 ∧
      (addNullLiteralConstraint e C).constraints =
        C.constraints ++
          [{ originAST := e,
             left := [.texpr (.nullLit (some (C.nullLiteralCounter + 1)))],
             right := [.tpointer (some (.texpr
               (.var (genTypeVarName C.typeVarCounter))))] }] ∧
      ∀ fuel ctx,
        getTypeId fuel (.texpr (.nullLit (some (C.nullLiteralCounter + 1)))) ctx =
          "expr_null_" ++ toString (C.nullLiteralCounter + 1)) ∧
    nullCollector.constraints =
      [{ originAST := .nullLit none,
         left := [.texpr (.nullLit (some 1))],
         right := [.tpointer (some (.texpr (.var "α")))] },
       { originAST := .assignment "x" (.nullLit none),
         left := [.texpr (.var "x")],
         right := [.texpr (.nullLit (some 1))] },
       { originAST := .nullLit none,
         left := [.texpr (.nullLit (some 2))],
         right := [.tpointer (some (.texpr (.var "β")))] },
       { originAST := .assignment "y" (.nullLit none),
         left := [.texpr (.var "y")],
         right := [.texpr (.nullLit (some 2))] }] ∧
    nullCollector.nullLiteralCounter = 2 ∧
    isGreekTypeVarName "α" = true ∧ isGreekTypeVarName "β" = true ∧
    toConcreteType 10 (.tpointer (some (.texpr (.var "α")))) =
      some (.pointer (some (.custom (.var "α")))) ∧
    hasTypeVariable (.custom (.var "α")) = true ∧
    ("expr_null_1" : String) ≠ "expr_null_2" ∧
    (findAux 10 nullRun.1 xVarId).1 = "expr_null_1" ∧
    (findAux 10 nullRun.1 yVarId).1 = "expr_null_2" ∧
    (findAux 10 nullRun.1 xVarId).1 ≠ (findAux 10 nullRun.1 yVarId).1 ∧
    (findAux 10 nullRun.1 "expr_null_1").1 ≠
      (findAux 10 nullRun.1 "expr_null_2").1 ∧
    nullRun.2 = [] := by
  refine ⟨fun C e => ⟨rfl, rfl, fun fuel ctx => rfl⟩,
    rfl, rfl, rfl, rfl, rfl, rfl, by decide, by decide, by decide,
    by decide, by decide, rfl⟩

/-!
## Parent chains, path compression, and the find/union frame (for C1, C8)
-/

/-- `x` reaches the root `r` (an id whose parent entry is itself) in exactly
`n` parent-chain steps. -/
inductive ReachesRootN (uf : UF) : String → String → Nat → Prop where
  | self (id : String) (h : alookup uf.parent id = some id) :
      ReachesRootN uf id id 0
  | step (id p r : String) (n : Nat) (hp : alookup uf.parent id = some p)
      (hne : p ≠ id) (hr : ReachesRootN uf p r n) :
      ReachesRootN uf id r (n + 1)

/-- `x` belongs to the equivalence class rooted at `r`. -/
def ReachesRoot (uf : UF) (x r : String) : Prop :=
  ∃ n, ReachesRootN uf x r n

theorem ReachesRootN.root_fixed {uf : UF} {x r : String} {n : Nat}
    (h : ReachesRootN uf x r n) : alookup uf.parent r = some r := by
  induction h with
  | self id hid => exact hid
  | step id p r n hp hne hr ih => exact ih

theorem ReachesRootN.det {uf : UF} {x r r' : String} {n n' : Nat}
    (h : ReachesRootN uf x r n) (h' : ReachesRootN uf x r' n') : r = r' := by
  induction h generalizing r' n' with
  | self id hid =>
    cases h' with
    | self _ _ => rfl
    | step _ p _ m hp hne hr =>
      rw [hid] at hp
      cases hp
      exact absurd rfl hne
  | step id p r n hp hne hr ih =>
    cases h' with
    | self _ hid =>
      rw [hid] at hp
      cases hp
      exact absurd rfl hne
    | step _ p' _ m hp' hne' hr' =>
      rw [hp] at hp'
      cases hp'
      exact ih hr'

/-- The store `uf'` differs from `uf` only by path compression: ranks and
payloads are identical, and every parent entry is either untouched or
rewritten to the root of its own class. -/
def CompressedTo (uf uf' : UF) : Prop :=
  uf'.rank = uf.rank ∧ uf'.typeInfo = uf.typeInfo ∧
  ∀ y, alookup uf'.parent y = alookup uf.parent y ∨
    ∃ rt, ReachesRoot uf y rt ∧ alookup uf'.parent y = some rt

theorem CompressedTo.rfl (uf : UF) : CompressedTo uf uf :=
  ⟨Eq.refl _, Eq.refl _, fun _ => Or.inl (Eq.refl _)⟩

/-- Path compression preserves class membership (with a chain no longer than
before). -/
theorem reaches_of_compressed {uf uf' : UF} (hc : CompressedTo uf uf')
    {x r : String} {n : Nat} (h : ReachesRootN uf x r n) :
    ∃ n', n' ≤ n ∧ ReachesRootN uf' x r n' := by
  induction h with
  | self id hid =>
    rcases hc.2.2 id with heq | ⟨rt, ⟨m, hrt⟩, hset⟩
    · exact ⟨0, Nat.le_refl 0, .self id (heq.trans hid)⟩
    · have hrid : rt = id := ReachesRootN.det hrt (.self id hid)
      rw [hrid] at hset
      exact ⟨0, Nat.le_refl 0, .self id hset⟩
  | step id p r n hp hne hr ih =>
    rcases ih with ⟨n', hle, hr'⟩
    rcases hc.2.2 id with heq | ⟨rt, ⟨m, hrt⟩, hset⟩
    · exact ⟨n' + 1, Nat.succ_le_succ hle, .step id p r n' (heq.trans hp) hne hr'⟩
    · have hrtr : rt = r := ReachesRootN.det hrt (.step id p r n hp hne hr)
      rw [hrtr] at hset
      have hroot : alookup uf.parent r = some r := hr.root_fixed
      have hrne : r ≠ id := by
        intro hre
        rw [hre] at hroot
        rw [hroot] at hp
        cases hp
        exact hne rfl
      rcases hc.2.2 r with heqr | ⟨rt2, ⟨m2, hrt2⟩, hset2⟩
      · exact ⟨1, Nat.succ_le_succ (Nat.zero_le n),
          .step id r r 0 hset hrne (.self r (heqr.trans hroot))⟩
      · have hrt2r : rt2 = r := ReachesRootN.det hrt2 (.self r hroot)
        rw [hrt2r] at hset2
        exact ⟨1, Nat.succ_le_succ (Nat.zero_le n),
          .step id r r 0 hset hrne (.self r hset2)⟩

/-- Path compression creates no new class memberships. -/
theorem reaches_rev_of_compressed {uf uf' : UF} (hc : CompressedTo uf uf')
    {x r : String} {n : Nat} (h : ReachesRootN uf' x r n) :
    ReachesRoot uf x r := by
  induction h with
  | self id hid =>
    rcases hc.2.2 id with heq | ⟨rt, ⟨m, hrt⟩, hset⟩
    · exact ⟨0, .self id (heq.symm.trans hid)⟩
    · rw [hid] at hset
      cases hset
      exact ⟨m, hrt⟩
  | step id p r n hp hne hr ih =>
    rcases ih with ⟨m, hm⟩
    rcases hc.2.2 id with heq | ⟨rt, ⟨m2, hrt2⟩, hset⟩
    · exact ⟨m + 1, .step id p r m (heq.symm.trans hp) hne hm⟩
    · rw [hp] at hset
      cases hset
      have hproot : alookup uf.parent p = some p := hrt2.root_fixed
      have hrp : r = p := ReachesRootN.det hm (.self p hproot)
      rw [hrp]
      exact ⟨m2, hrt2⟩

theorem CompressedTo.comp {uf1 uf2 uf3 : UF} (h12 : CompressedTo uf1 uf2)
    (h23 : CompressedTo uf2 uf3) : CompressedTo uf1 uf3 := by
  refine ⟨h23.1.trans h12.1, h23.2.1.trans h12.2.1, fun y => ?_⟩
  rcases h23.2.2 y with heq | ⟨rt, ⟨m, hm⟩, hset⟩
  · rcases h12.2.2 y with heq' | ⟨rt, hrt, hset⟩
    · exact Or.inl (heq.trans heq')
    · exact Or.inr ⟨rt, hrt, heq.trans hset⟩
  · exact Or.inr ⟨rt, reaches_rev_of_compressed h12 hm, hset⟩

/-- A rooted id is resolved by `find` without touching the store. -/
theorem findAux_at_root (fuel : Nat) (uf : UF) (id : String)
    (hid : alookup uf.parent id = some id) :
    findAux fuel uf id = (id, uf) := by
  unfold findAux
  rw [hid]
  simp

/-- One chain step of `find`. -/
theorem findAux_step (fuel' : Nat) (uf : UF) (id p : String)
    (hp : alookup uf.parent id = some p) (hne : p ≠ id) :
    findAux (fuel' + 1) uf id =
      ((findAux fuel' uf p).1,
       { (findAux fuel' uf p).2 with
         parent := aset (findAux fuel' uf p).2.parent id
           (findAux fuel' uf p).1 }) := by
  conv_lhs => rw [findAux]
  rw [hp]
  simp [hne]

/-- `find` with enough fuel resolves the root and only path-compresses. -/
theorem findAux_spec {uf : UF} {x r : String} {n : Nat}
    (h : ReachesRootN uf x r n) :
    ∀ fuel, n ≤ fuel →
      (findAux fuel uf x).1 = r ∧ CompressedTo uf (findAux fuel uf x).2 := by
  induction h with
  | self id hid =>
    intro fuel _
    rw [findAux_at_root fuel uf id hid]
    exact ⟨Eq.refl _, CompressedTo.rfl uf⟩
  | step id p r n hp hne hr ih =>
    intro fuel hle
    cases fuel with
    | zero => omega
    | succ fuel' =>
      have hle' : n ≤ fuel' := Nat.le_of_succ_le_succ hle
      obtain ⟨h1, h2⟩ := ih fuel' hle'
      rw [findAux_step fuel' uf id p hp hne]
      refine ⟨h1, h2.1, h2.2.1, fun y => ?_⟩
      by_cases hy : y = id
      · rw [hy]
        refine Or.inr ⟨r, ⟨n + 1, .step id p r n hp hne hr⟩, ?_⟩
        rw [alookup_aset_self, h1]
      · rw [alookup_aset_ne _ _ _ _ (fun hh => hy hh.symm)]
        exact h2.2.2 y

/-- `find` on an unregistered id auto-registers it. -/
theorem findAux_unseen (fuel : Nat) (uf : UF) (x : String)
    (h : alookup uf.parent x = none) :
    findAux fuel uf x = (x, makeSet uf x none) := by
  unfold findAux
  rw [h]

/-- A `union` between classes with incompatible concrete payloads returns
`false` and only path-compresses the store. -/
theorem union_incompatible_spec
    (fuel n1 n2 : Nat) (uf : UF) (a b ra rb : String) (t1 t2 : CType)
    (h1 : ReachesRootN uf a ra n1) (h2 : ReachesRootN uf b rb n2)
    (hf1 : n1 ≤ fuel) (hf2 : n2 ≤ fuel) (hne : ra ≠ rb)
    (hp1 : payload uf ra = some t1) (hp2 : payload uf rb = some t2)
    (htv1 : t1.isTypevar = false) (htv2 : t2.isTypevar = false)
    (hcompat : isCompatible t1 t2 = false) :
    (union fuel uf a b).1 = false ∧
    CompressedTo uf (union fuel uf a b).2 := by
  obtain ⟨hr1, hc1⟩ := findAux_spec h1 fuel hf1
  obtain ⟨n2', hn2', h2'⟩ := reaches_of_compressed hc1 h2
  obtain ⟨hr2, hc2⟩ := findAux_spec h2' fuel (Nat.le_trans hn2' hf2)
  have hcc : CompressedTo uf (findAux fuel (findAux fuel uf a).2 b).2 :=
    hc1.comp hc2
  have hty1 : payload (findAux fuel (findAux fuel uf a).2 b).2 ra = some t1 := by
    unfold payload
    rw [hcc.2.1]
    exact hp1
  have hty2 : payload (findAux fuel (findAux fuel uf a).2 b).2 rb = some t2 := by
    unfold payload
    rw [hcc.2.1]
    exact hp2
  have hu : union fuel uf a b =
      (false, (findAux fuel (findAux fuel uf a).2 b).2) := by
    simp only [union]
    rw [hr1, hr2, if_neg hne, hty1, hty2]
    simp [htv1, htv2, hcompat]
  rw [hu]
  exact ⟨Eq.refl _, hcc⟩

/-- The iteration of `unifyConstraintPairs` whose union fails appends
exactly one error entry and carries on with the loop. -/
theorem unifyPairsFrom_failed_step (fuel : Nat) (origin : Ast)
    (l r : List String) (k i : Nat) (uf0 : UF) (errors : List String)
    (leftId rightId : String)
    (hl : l.get? (i % l.length) = some leftId)
    (hr : r.get? (i % r.length) = some rightId)
    (hne1 : leftId ≠ "") (hne2 : rightId ≠ "")
    (hfail : (union fuel uf0 leftId rightId).1 = false) :
    unifyPairsFrom fuel origin l r (k + 1) i uf0 errors =
      unifyPairsFrom fuel origin l r k (i + 1)
        (union fuel uf0 leftId rightId).2
        (errors ++ [errUnifyMsg origin leftId rightId]) := by
  conv_lhs => rw [unifyPairsFrom]
  rw [hl, hr]
  simp [hne1, hne2, hfail]

/-!
## C1: failed unions — what is and is not preserved
-/

/-- C1, amended: when the roots `ra`, `rb` of `a` and `b` carry concrete
payloads (neither a type variable) that are structurally incompatible,
`union(a, b)` returns `false`, the `rank` and `typeInfo` maps are untouched,
and the partition into equivalence classes is exactly preserved — in
particular `a` and `b` stay in their distinct classes.  Parent entries are
however NOT all left unchanged: each is either untouched or rewritten to
the root of its own class by the path compression the two embedded `find`
calls perform (see `claim_C1_counterexample` for an entry that changes).
In the unification pass, each such failed union appends exactly one entry
to the error list before the loop continues. -/
theorem claim_C1_union_failure_frame
    (fuel n1 n2 : Nat) (uf : UF) (a b ra rb : String) (t1 t2 : CType)
    (h1 : ReachesRootN uf a ra n1) (h2 : ReachesRootN uf b rb n2)
    (hf1 : n1 ≤ fuel) (hf2 : n2 ≤ fuel) (hne : ra ≠ rb)
    (hp1 : payload uf ra = some t1) (hp2 : payload uf rb = some t2)
    (htv1 : t1.isTypevar = false) (htv2 : t2.isTypevar = false)
    (hcompat : isCompatible t1 t2 = false) :
    (union fuel uf a b).1 = false ∧
    (union fuel uf a b).2.rank = uf.rank ∧
    (union fuel uf a b).2.typeInfo = uf.typeInfo ∧
    (∀ x rt, ReachesRoot uf x rt ↔ ReachesRoot (union fuel uf a b).2 x rt) ∧
    (∀ y, alookup (union fuel uf a b).2.parent y = alookup uf.parent y ∨
      ∃ rt, ReachesRoot uf y rt ∧
        alookup (union fuel uf a b).2.parent y = some rt) ∧
    ReachesRoot (union fuel uf a b).2 a ra ∧
    ReachesRoot (union fuel uf a b).2 b rb ∧
    (∀ (origin : Ast) (l r : List String) (k i : Nat) (uf0 : UF)
       (errors : List String) (leftId rightId : String),
      l.get? (i % l.length) = some leftId →
      r.get? (i % r.length) = some rightId →
      leftId ≠ "" → rightId ≠ "" →
      (union fuel uf0 leftId rightId).1 = false →
      unifyPairsFrom fuel origin l r (k + 1) i uf0 errors =
        unifyPairsFrom fuel origin l r k (i + 1)
          (union fuel uf0 leftId rightId).2
          (errors ++ [errUnifyMsg origin leftId rightId])) := by
  obtain ⟨hfalse, hcc⟩ := union_incompatible_spec fuel n1 n2 uf a b ra rb t1 t2
    h1 h2 hf1 hf2 hne hp1 hp2 htv1 htv2 hcompat
  have hiff : ∀ x rt, ReachesRoot uf x rt ↔
      ReachesRoot (union fuel uf a b).2 x rt := by
    intro x rt
    constructor
    · rintro ⟨n, hn⟩
      obtain ⟨n', _, hn'⟩ := reaches_of_compressed hcc hn
      exact ⟨n', hn'⟩
    · rintro ⟨n, hn⟩
      exact reaches_rev_of_compressed hcc hn
  refine ⟨hfalse, hcc.1, hcc.2.1, hiff, hcc.2.2,
    (hiff a ra).mp ⟨n1, h1⟩, (hiff b rb).mp ⟨n2, h2⟩,
    fun origin l r k i uf0 errors leftId rightId hl hr hne1 hne2 hfail =>
      unifyPairsFrom_failed_step fuel origin l r k i uf0 errors
        leftId rightId hl hr hne1 hne2 hfail⟩

/-- Two root classes with incompatible concrete payloads (`Int` vs
`Pointer`). -/
def c1Store : UF :=
  ⟨[("a", "a"), ("b", "b")], [("a", 0), ("b", 0)],
   [("a", some CType.int), ("b", some (CType.pointer none))]⟩

/-- Witness for C1 at `c1Store` (both ids are roots, chain length 0). -/
theorem claim_C1_witness :
    (union 3 c1Store "a" "b").1 = false ∧
    (union 3 c1Store "a" "b").2.rank = c1Store.rank ∧
    (union 3 c1Store "a" "b").2.typeInfo = c1Store.typeInfo := by
  have h := claim_C1_union_failure_frame 3 0 0 c1Store "a" "b" "a" "b"
    CType.int (CType.pointer none)
    (.self "a" rfl) (.self "b" rfl)
    (Nat.zero_le 3) (Nat.zero_le 3) (by decide)
    rfl rfl rfl rfl (by simp [isCompatible])
  exact ⟨h.1, h.2.1, h.2.2.1⟩

/-- A chain `a → p → r` whose root `r` carries `Int`, next to a root `b`
carrying `Pointer` — incompatible payloads. -/
def chainStore : UF :=
  ⟨[("a", "p"), ("p", "r"), ("r", "r"), ("b", "b")],
   [("a", 0), ("p", 0), ("r", 1), ("b", 0)],
   [("r", some CType.int), ("b", some (CType.pointer none))]⟩

/-- C1 counterexample to "no parent entry is modified": on `chainStore` the
union fails as the claim requires, yet path compression rewrites the parent
entry of `a` from `p` to the root `r`. -/
theorem claim_C1_counterexample :
    payload chainStore "r" = some CType.int ∧
    payload chainStore "b" = some (CType.pointer none) ∧
    isCompatible CType.int (CType.pointer none) = false ∧
    (union 5 chainStore "a" "b").1 = false ∧
    alookup chainStore.parent "a" = some "p" ∧
    alookup (union 5 chainStore "a" "b").2.parent "a" = some "r" := by
  have hfail : isCompatible CType.int (CType.pointer none) = false := by
    simp [isCompatible]
  refine ⟨rfl, rfl, hfail, ?_, rfl, ?_⟩ <;>
    simp [union, findAux, chainStore, payload, alookup, aset,
      CType.isTypevar, hfail]

/-!
## C8: the query surface
-/

/-- Every registered id reaches a root in at most `fuel` steps. -/
def WellFormedWithin (fuel : Nat) (uf : UF) : Prop :=
  ∀ y p, alookup uf.parent y = some p →
    ∃ r n, ReachesRootN uf y r n ∧ n ≤ fuel

theorem compressed_none_iff {uf uf' : UF} (hc : CompressedTo uf uf')
    (y : String) :
    alookup uf'.parent y = none ↔ alookup uf.parent y = none := by
  rcases hc.2.2 y with heq | ⟨rt, ⟨m, hm⟩, hset⟩
  · rw [heq]
  · rw [hset]
    constructor
    · intro h
      cases h
    · intro h
      cases hm with
      | self _ hh => rw [h] at hh; cases hh
      | step _ p _ _ hh _ _ => rw [h] at hh; cases hh

theorem wellFormed_of_compressed {fuel : Nat} {uf uf' : UF}
    (hc : CompressedTo uf uf') (hwf : WellFormedWithin fuel uf) :
    WellFormedWithin fuel uf' := by
  intro y p hp
  have huf : ∃ q, alookup uf.parent y = some q := by
    rcases hc.2.2 y with heq | ⟨rt, ⟨m, hm⟩, hset⟩
    · exact ⟨p, heq.symm.trans hp⟩
    · cases hm with
      | self _ hh => exact ⟨_, hh⟩
      | step _ p' _ _ hh _ _ => exact ⟨_, hh⟩
  rcases huf with ⟨q, hq⟩
  rcases hwf y q hq with ⟨r, n, hr, hn⟩
  rcases reaches_of_compressed hc hr with ⟨n', hn', hr'⟩
  exact ⟨r, n', hr', Nat.le_trans hn' hn⟩

theorem alookup_of_mem_keys {β : Type} {m : List (String × β)} {id : String}
    (h : id ∈ m.map Prod.fst) : ∃ v, alookup m id = some v := by
  induction m with
  | nil => simp at h
  | cons hd t ih =>
    obtain ⟨k, v⟩ := hd
    by_cases hk : k = id
    · exact ⟨v, by simp [alookup, hk]⟩
    · rw [List.map_cons, List.mem_cons] at h
      rcases h with h | h
      · exact absurd h.symm hk
      · rcases ih h with ⟨v', hv⟩
        exact ⟨v', by simp [alookup, hk, hv]⟩

theorem getAllGroupsAux_compressed (fuel : Nat) (uf : UF) :
    ∀ (ids : List String) (uf' : UF) (groups : List (String × List String)),
      CompressedTo uf uf' →
      (∀ id ∈ ids, ∃ r n, ReachesRootN uf id r n ∧ n ≤ fuel) →
      CompressedTo uf (getAllGroupsAux fuel ids uf' groups).2 := by
  intro ids
  induction ids with
  | nil =>
    intro uf' groups hc _
    exact hc
  | cons id rest ih =>
    intro uf' groups hc hroot
    obtain ⟨r, n, hr, hn⟩ := hroot id (List.mem_cons_self id rest)
    obtain ⟨n', hn', hr'⟩ := reaches_of_compressed hc hr
    obtain ⟨hfst, hcf⟩ := findAux_spec hr' fuel (Nat.le_trans hn' hn)
    simp only [getAllGroupsAux]
    exact ih _ _ (hc.comp hcf)
      (fun i hi => hroot i (List.mem_cons_of_mem id hi))

theorem getAllGroups_compressed (fuel : Nat) (uf : UF)
    (hwf : WellFormedWithin fuel uf) :
    CompressedTo uf (getAllGroups fuel uf).2 := by
  apply getAllGroupsAux_compressed fuel uf _ uf [] (CompressedTo.rfl uf)
  intro id hid
  have hmem : id ∈ uf.parent.map Prod.fst := hid
  obtain ⟨v, hv⟩ := alookup_of_mem_keys hmem
  exact hwf id v hv

theorem findConnectedTypesLoop_compressed (fuel : Nat) (uf : UF)
    (targetId : String) (r : String) (n : Nat)
    (hroot : ReachesRootN uf targetId r n) (hn : n ≤ fuel) :
    ∀ (groups : List (String × List String)) (uf' : UF),
      CompressedTo uf uf' →
      CompressedTo uf (findConnectedTypesLoop fuel targetId groups uf').2 := by
  intro groups
  induction groups with
  | nil =>
    intro uf' hc
    exact hc
  | cons g rest ih =>
    intro uf' hc
    obtain ⟨rep, members⟩ := g
    obtain ⟨n', hn', hr'⟩ := reaches_of_compressed hc hroot
    obtain ⟨hfst, hcf⟩ := findAux_spec hr' fuel (Nat.le_trans hn' hn)
    have hcc := hc.comp hcf
    simp only [findConnectedTypesLoop]
    split
    · split
      · exact hcc
      · exact ih _ hcc
    · exact ih _ hcc

theorem findConnectedTypes_compressed (fuel : Nat) (uf : UF)
    (targetExpr : Ast) (hwf : WellFormedWithin fuel uf) (r : String) (n : Nat)
    (hroot : ReachesRootN uf ("expr_" ++ jsonOfAst fuel targetExpr) r n)
    (hn : n ≤ fuel) :
    CompressedTo uf (findConnectedTypes fuel uf targetExpr).2 := by
  obtain ⟨hfst, hcf⟩ := findAux_spec hroot fuel hn
  have hwf1 := wellFormed_of_compressed hcf hwf
  have hag := getAllGroups_compressed fuel _ hwf1
  have hcc := hcf.comp hag
  simp only [findConnectedTypes]
  exact findConnectedTypesLoop_compressed fuel uf _ r n hroot hn _ _ hcc

/-- The observable frame a path-compressed store preserves. -/
theorem compressed_frame {uf uf' : UF} (hc : CompressedTo uf uf') :
    uf'.rank = uf.rank ∧ uf'.typeInfo = uf.typeInfo ∧
    (∀ x rt, ReachesRoot uf x rt ↔ ReachesRoot uf' x rt) ∧
    (∀ y, alookup uf'.parent y = none ↔ alookup uf.parent y = none) := by
  refine ⟨hc.1, hc.2.1, fun x rt => ⟨?_, ?_⟩, compressed_none_iff hc⟩
  · rintro ⟨n, hn⟩
    obtain ⟨n', _, hn'⟩ := reaches_of_compressed hc hn
    exact ⟨n', hn'⟩
  · rintro ⟨n, hn⟩
    exact reaches_rev_of_compressed hc hn

/-- C8, amended: the query surface is observation-preserving but not
literally side-effect-free.  For a registered id, `getType` returns the
root's payload and only path-compresses: ranks, payloads, the partition
into classes, and the set of registered ids are all unchanged (parent
entries may be rewritten within their class).  For an id never registered,
`getType` AUTO-REGISTERS it — the registered-id set grows by a fresh
singleton class (see `claim_C8_counterexample`) — while every other id's
entries are untouched.  `findTypeByPattern` reads `typeInfo` only, and
`getAllGroups` / `findConnectedTypes` preserve the same observables as
`getType` whenever every id they run `find` on resolves within fuel. -/
theorem claim_C8_query_surface (fuel : Nat) (uf : UF) :
    (∀ (id r : String) (n : Nat), ReachesRootN uf id r n → n ≤ fuel →
      getType fuel uf id = (payload uf r, (findAux fuel uf id).2) ∧
      (getType fuel uf id).2.rank = uf.rank ∧
      (getType fuel uf id).2.typeInfo = uf.typeInfo ∧
      (∀ x rt, ReachesRoot uf x rt ↔ ReachesRoot (getType fuel uf id).2 x rt) ∧
      (∀ y, alookup (getType fuel uf id).2.parent y = none ↔
        alookup uf.parent y = none)) ∧
    (∀ id : String, alookup uf.parent id = none →
      getType fuel uf id = (none, makeSet uf id none) ∧
      alookup (makeSet uf id none).parent id = some id ∧
      ∀ y, y ≠ id →
        alookup (makeSet uf id none).parent y = alookup uf.parent y ∧
        alookup (makeSet uf id none).rank y = alookup uf.rank y ∧
        alookup (makeSet uf id none).typeInfo y = alookup uf.typeInfo y) ∧
    (∀ uf' : UF, uf.typeInfo = uf'.typeInfo →
      ∀ nm, findTypeByPattern uf nm = findTypeByPattern uf' nm) ∧
    (WellFormedWithin fuel uf →
      (getAllGroups fuel uf).2.rank = uf.rank ∧
      (getAllGroups fuel uf).2.typeInfo = uf.typeInfo ∧
      (∀ x rt, ReachesRoot uf x rt ↔
        ReachesRoot (getAllGroups fuel uf).2 x rt) ∧
      (∀ y, alookup (getAllGroups fuel uf).2.parent y = none ↔
        alookup uf.parent y = none)) ∧
    (∀ (targetExpr : Ast) (r : String) (n : Nat), WellFormedWithin fuel uf →
      ReachesRootN uf ("expr_" ++ jsonOfAst fuel targetExpr) r n → n ≤ fuel →
      (findConnectedTypes fuel uf targetExpr).2.rank = uf.rank ∧
      (findConnectedTypes fuel uf targetExpr).2.typeInfo = uf.typeInfo ∧
      (∀ x rt, ReachesRoot uf x rt ↔
        ReachesRoot (findConnectedTypes fuel uf targetExpr).2 x rt) ∧
      (∀ y,
        alookup (findConnectedTypes fuel uf targetExpr).2.parent y = none ↔
        alookup uf.parent y = none)) := by
  refine ⟨?_, ?_, ?_, ?_, ?_⟩
  · intro id r n hr hn
    obtain ⟨hfst, hcf⟩ := findAux_spec hr fuel hn
    have hgt : getType fuel uf id = (payload uf r, (findAux fuel uf id).2) := by
      simp only [getType]
      rw [hfst]
      unfold payload
      rw [hcf.2.1]
    obtain ⟨hrk, hti, hiff, hnone⟩ := compressed_frame hcf
    rw [hgt]
    exact ⟨rfl, hrk, hti, hiff, hnone⟩
  · intro id h
    have hf := findAux_unseen fuel uf id h
    have hpay : payload (makeSet uf id none) id = none := by
      simp [payload, makeSet, alookup_aset_self]
    refine ⟨?_, by simp [makeSet, alookup_aset_self], ?_⟩
    · simp only [getType, hf, hpay]
    · intro y hy
      have hne : id ≠ y := fun hh => hy hh.symm
      exact ⟨by simp [makeSet, alookup_aset_ne _ _ _ _ hne],
        by simp [makeSet, alookup_aset_ne _ _ _ _ hne],
        by simp [makeSet, alookup_aset_ne _ _ _ _ hne]⟩
  · intro uf' hti nm
    unfold findTypeByPattern
    rw [hti]
  · intro hwf
    exact compressed_frame (getAllGroups_compressed fuel uf hwf)
  · intro targetExpr r n hwf hr hn
    exact compressed_frame
      (findConnectedTypes_compressed fuel uf targetExpr hwf r n hr hn)

/-- C8 counterexample to "getType leaves the store unchanged, including for
identifiers never registered": on the empty store, `getType("x")`
registers `x` (fresh parent, rank and payload entries appear). -/
theorem claim_C8_counterexample :
    UF.empty.parent = [] ∧
    getType 5 UF.empty "x" = (none, makeSet UF.empty "x" none) ∧
    (getType 5 UF.empty "x").2.parent = [("x", "x")] ∧
    (getType 5 UF.empty "x").2.rank = [("x", 0)] :=
  ⟨rfl, rfl, rfl, rfl⟩

/-- A one-class store used to exercise the C8 theorem. -/
def c8Store : UF := ⟨[("a", "a")], [("a", 0)], [("a", some CType.int)]⟩

/-- Witness for C8 at `c8Store`: a registered query, an unregistered query,
and a `getAllGroups` run. -/
theorem claim_C8_witness :
    getType 3 c8Store "a" = (some CType.int, c8Store) ∧
    getType 3 c8Store "zzz" = (none, makeSet c8Store "zzz" none) ∧
    (getAllGroups 3 c8Store).2.rank = c8Store.rank := by
  have h := claim_C8_query_surface 3 c8Store
  refine ⟨?_, (h.2.1 "zzz" rfl).1, ?_⟩
  · have h1 := (h.1 "a" "a" 0 (.self "a" rfl) (Nat.zero_le 3)).1
    rw [h1]
    rfl
  · have hwf : WellFormedWithin 3 c8Store := by
      intro y p hp
      by_cases hy : "a" = y
      · rw [← hy]
        exact ⟨"a", 0, .self "a" rfl, Nat.zero_le 3⟩
      · exfalso
        simp [c8Store, alookup, hy] at hp
    exact (h.2.2.2.1 hwf).1

/-!
## C7: non-fatal, cumulative error propagation in `validateAllTypes`
-/

theorem validateDereferenceExpressions_append (fuel : Nat) (uf : UF)
    (cs1 cs2 : List Constraint) :
    validateDereferenceExpressions fuel (cs1 ++ cs2) uf =
      validateDereferenceExpressions fuel cs1 uf ++
        validateDereferenceExpressions fuel cs2 uf := by
  induction cs1 with
  | nil => rfl
  | cons c rest ih =>
    simp [validateDereferenceExpressions, ih, List.append_assoc]

theorem validatePointerAssignments_append (fuel : Nat) (uf : UF)
    (cs1 cs2 : List Constraint) :
    validatePointerAssignments fuel (cs1 ++ cs2) uf =
      validatePointerAssignments fuel cs1 uf ++
        validatePointerAssignments fuel cs2 uf := by
  induction cs1 with
  | nil => rfl
  | cons c rest ih =>
    simp [validatePointerAssignments, ih, List.append_assoc]

theorem validateAllocExpressions_append (fuel : Nat) (uf : UF)
    (cs1 cs2 : List Constraint) :
    validateAllocExpressions fuel (cs1 ++ cs2) uf =
      validateAllocExpressions fuel cs1 uf ++
        validateAllocExpressions fuel cs2 uf := by
  induction cs1 with
  | nil => rfl
  | cons c rest ih =>
    simp [validateAllocExpressions, ih, List.append_assoc]

theorem validateBinaryExpressions_append (fuel : Nat) (uf : UF)
    (cs1 cs2 : List Constraint) :
    validateBinaryExpressions fuel (cs1 ++ cs2) uf =
      validateBinaryExpressions fuel cs1 uf ++
        validateBinaryExpressions fuel cs2 uf := by
  induction cs1 with
  | nil => rfl
  | cons c rest ih =>
    simp [validateBinaryExpressions, ih, List.append_assoc]

theorem validateFunctionCallsLoop1_append (fuel : Nat) (uf : UF)
    (cs1 cs2 : List Constraint) :
    validateFunctionCallsLoop1 fuel (cs1 ++ cs2) uf =
      validateFunctionCallsLoop1 fuel cs1 uf ++
        validateFunctionCallsLoop1 fuel cs2 uf := by
  induction cs1 with
  | nil => rfl
  | cons c rest ih =>
    simp [validateFunctionCallsLoop1, ih, List.append_assoc]

theorem validateFunctionCallsLoop2_append (fuel : Nat) (uf : UF)
    (cs1 cs2 : List Constraint) :
    validateFunctionCallsLoop2 fuel (cs1 ++ cs2) uf =
      validateFunctionCallsLoop2 fuel cs1 uf ++
        validateFunctionCallsLoop2 fuel cs2 uf := by
  induction cs1 with
  | nil => rfl
  | cons c rest ih =>
    simp [validateFunctionCallsLoop2, ih, List.append_assoc]

theorem validatePropertyAccess_append (fuel : Nat) (uf : UF)
    (cs1 cs2 : List Constraint) :
    validatePropertyAccess fuel (cs1 ++ cs2) uf =
      validatePropertyAccess fuel cs1 uf ++
        validatePropertyAccess fuel cs2 uf := by
  induction cs1 with
  | nil => rfl
  | cons c rest ih =>
    simp [validatePropertyAccess, ih, List.append_assoc]

theorem collectVariableAssignments_append (fuel : Nat) (uf : UF)
    (cs1 cs2 : List Constraint) (m : List (String × List CType)) :
    collectVariableAssignments fuel uf (cs1 ++ cs2) m =
      collectVariableAssignments fuel uf cs2
        (collectVariableAssignments fuel uf cs1 m) := by
  induction cs1 generalizing m with
  | nil => rfl
  | cons c rest ih =>
    simp [collectVariableAssignments, ih]

theorem validateAllTypes_flat (fuel : Nat) (cs : List Constraint) (uf : UF) :
    validateAllTypes fuel cs uf =
      validateDereferenceExpressions fuel cs uf ++
      validatePointerAssignments fuel cs uf ++
      validateAllocExpressions fuel cs uf ++
      validateBinaryExpressions fuel cs uf ++
      validateFunctionCalls fuel cs uf ++
      validatePropertyAccess fuel cs uf ++
      validateVariableTypeConsistency fuel cs uf := rfl

theorem validateAllTypes_empty_iff (fuel : Nat) (cs : List Constraint)
    (uf : UF) :
    validateAllTypes fuel cs uf = [] ↔
      (validateDereferenceExpressions fuel cs uf = [] ∧
       validatePointerAssignments fuel cs uf = [] ∧
       validateAllocExpressions fuel cs uf = [] ∧
       validateBinaryExpressions fuel cs uf = [] ∧
       validateFunctionCalls fuel cs uf = [] ∧
       validatePropertyAccess fuel cs uf = [] ∧
       validateVariableTypeConsistency fuel cs uf = []) := by
  rw [validateAllTypes_flat]
  simp [List.append_eq_nil, and_assoc]

/-- C7: error propagation is non-fatal and cumulative. `validateAllTypes`
returns exactly the concatenation, in order, of the seven checks' error
lists over the full constraint list (so no check is skipped because an
earlier one reported and all errors land in one flat list); every
list-shaped check distributes over concatenation of the constraint list
(so a constraint causing errors never stops the scan of the rest, the
variable-consistency collection phase likewise composing over suffixes);
and the returned list is empty exactly when every one of the seven checks
reports nothing — the checker accepts the program. -/
theorem claim_C7_cumulative_validation :
    (∀ (fuel : Nat) (cs : List Constraint) (uf : UF),
      validateAllTypes fuel cs uf =
        validateDereferenceExpressions fuel cs uf ++
        validatePointerAssignments fuel cs uf ++
        validateAllocExpressions fuel cs uf ++
        validateBinaryExpressions fuel cs uf ++
        validateFunctionCalls fuel cs uf ++
        validatePropertyAccess fuel cs uf ++
        validateVariableTypeConsistency fuel cs uf) ∧
    (∀ (fuel : Nat) (uf : UF) (cs1 cs2 : List Constraint),
      validateDereferenceExpressions fuel (cs1 ++ cs2) uf =
        validateDereferenceExpressions fuel cs1 uf ++
          validateDereferenceExpressions fuel cs2 uf ∧
      validatePointerAssignments fuel (cs1 ++ cs2) uf =
        validatePointerAssignments fuel cs1 uf ++
          validatePointerAssignments fuel cs2 uf ∧
      validateAllocExpressions fuel (cs1 ++ cs2) uf =
        validateAllocExpressions fuel cs1 uf ++
          validateAllocExpressions fuel cs2 uf ∧
      validateBinaryExpressions fuel (cs1 ++ cs2) uf =
        validateBinaryExpressions fuel cs1 uf ++
          validateBinaryExpressions fuel cs2 uf ∧
      validateFunctionCallsLoop1 fuel (cs1 ++ cs2) uf =
        validateFunctionCallsLoop1 fuel cs1 uf ++
          validateFunctionCallsLoop1 fuel cs2 uf ∧
      validateFunctionCallsLoop2 fuel (cs1 ++ cs2) uf =
        validateFunctionCallsLoop2 fuel cs1 uf ++
          validateFunctionCallsLoop2 fuel cs2 uf ∧
      validatePropertyAccess fuel (cs1 ++ cs2) uf =
        validatePropertyAccess fuel cs1 uf ++
          validatePropertyAccess fuel cs2 uf) ∧
    (∀ (fuel : Nat) (uf : UF) (cs1 cs2 : List Constraint)
        (m : List (String × List CType)),
      collectVariableAssignments fuel uf (cs1 ++ cs2) m =
        collectVariableAssignments fuel uf cs2
          (collectVariableAssignments fuel uf cs1 m)) ∧
    (∀ (fuel : Nat) (cs : List Constraint) (uf : UF),
      validateAllTypes fuel cs uf = [] ↔
        (validateDereferenceExpressions fuel cs uf = [] ∧
         validatePointerAssignments fuel cs uf = [] ∧
         validateAllocExpressions fuel cs uf = [] ∧
         validateBinaryExpressions fuel cs uf = [] ∧
         validateFunctionCalls fuel cs uf = [] ∧
         validatePropertyAccess fuel cs uf = [] ∧
         validateVariableTypeConsistency fuel cs uf = [])) := by
  refine ⟨validateAllTypes_flat, fun fuel uf cs1 cs2 => ?_,
    collectVariableAssignments_append, validateAllTypes_empty_iff⟩
  exact ⟨validateDereferenceExpressions_append fuel uf cs1 cs2,
    validatePointerAssignments_append fuel uf cs1 cs2,
    validateAllocExpressions_append fuel uf cs1 cs2,
    validateBinaryExpressions_append fuel uf cs1 cs2,
    validateFunctionCallsLoop1_append fuel uf cs1 cs2,
    validateFunctionCallsLoop2_append fuel uf cs1 cs2,
    validatePropertyAccess_append fuel uf cs1 cs2⟩

/-!
## C10: when `union` fails, and payload substitution for type variables
-/

theorem union_false_characterization (fuel : Nat) (uf : UF) (a b : String)
    (h : (union fuel uf a b).1 = false) :
    ∃ r1 uf1 r2 uf2 t1 t2,
      findAux fuel uf a = (r1, uf1) ∧ findAux fuel uf1 b = (r2, uf2) ∧
      r1 ≠ r2 ∧ payload uf2 r1 = some t1 ∧ payload uf2 r2 = some t2 ∧
      t1.isTypevar = false ∧ t2.isTypevar = false ∧
      isCompatible t1 t2 = false := by
  simp only [union] at h
  refine ⟨(findAux fuel uf a).1, (findAux fuel uf a).2,
    (findAux fuel (findAux fuel uf a).2 b).1,
    (findAux fuel (findAux fuel uf a).2 b).2, ?_⟩
  split at h
  · simp at h
  · next hne =>
    split at h
    · next hnone =>
      split at hnone
      · next t1 t2 heq1 heq2 =>
        split at hnone
        · split at hnone
          · simp at hnone
          · split at hnone <;> simp at hnone
        · next htv =>
          split at hnone
          · next hcompat =>
            simp only [Bool.or_eq_true, not_or, Bool.not_eq_true] at htv
            refine ⟨t1, t2, rfl, rfl, hne, heq1, heq2, htv.1, htv.2, ?_⟩
            simpa using hcompat
          · split at hnone <;> simp at hnone
      · simp at hnone
    · split at h
      · simp at h
      · split at h <;> simp at h

theorem union_true_of_absent_or_typevar (fuel : Nat) (uf : UF) (a b : String)
    (r1 r2 : String) (uf1 uf2 : UF)
    (hfa : findAux fuel uf a = (r1, uf1)) (hfb : findAux fuel uf1 b = (r2, uf2))
    (hcond : payload uf2 r1 = none ∨ payload uf2 r2 = none ∨
      (∃ t1, payload uf2 r1 = some t1 ∧ t1.isTypevar = true) ∨
      (∃ t2, payload uf2 r2 = some t2 ∧ t2.isTypevar = true)) :
    (union fuel uf a b).1 = true := by
  simp only [union, hfa, hfb]
  split
  · rfl
  · next hne =>
    split
    · next hnone =>
      exfalso
      split at hnone
      · next t1 t2 he1 he2 =>
        split at hnone
        · split at hnone
          · simp at hnone
          · split at hnone <;> simp at hnone
        · next htv =>
          split at hnone
          · simp only [Bool.or_eq_true, not_or, Bool.not_eq_true] at htv
            rcases hcond with hc | hc | ⟨t, ht, htv'⟩ | ⟨t, ht, htv'⟩
            · rw [he1] at hc; cases hc
            · rw [he2] at hc; cases hc
            · rw [he1] at ht
              rw [(Option.some.injEq _ _ ▸ ht : t1 = t)] at htv
              rw [htv'] at htv
              cases htv.1
            · rw [he2] at ht
              rw [(Option.some.injEq _ _ ▸ ht : t2 = t)] at htv
              rw [htv'] at htv
              cases htv.2
          · split at hnone <;> simp at hnone
      · simp at hnone
    · split
      · rfl
      · split <;> rfl

theorem union_typevar_left_substituted (fuel : Nat) (uf : UF) (a b : String)
    (r1 r2 : String) (uf1 uf2 : UF) (t1 t2 : CType)
    (hfa : findAux fuel uf a = (r1, uf1)) (hfb : findAux fuel uf1 b = (r2, uf2))
    (hne : r1 ≠ r2)
    (hroot1 : alookup uf2.parent r1 = some r1)
    (hroot2 : alookup uf2.parent r2 = some r2)
    (ht1 : payload uf2 r1 = some t1) (ht2 : payload uf2 r2 = some t2)
    (htv1 : t1.isTypevar = true) (htv2 : t2.isTypevar = false) :
    (union fuel uf a b).1 = true ∧
    ∃ rNew, (rNew = r1 ∨ rNew = r2) ∧
      alookup (union fuel uf a b).2.parent r1 = some rNew ∧
      alookup (union fuel uf a b).2.parent r2 = some rNew ∧
      payload (union fuel uf a b).2 rNew = some t2 := by
  simp only [union, hfa, hfb, ht1, ht2, htv1, htv2, if_neg hne,
    Bool.true_or, Bool.not_false, Bool.and_self, if_pos, reduceIte]
  split
  · next hlt =>
    refine ⟨rfl, r2, Or.inr rfl, ?_, ?_, ?_⟩
    · simp [setTypeInfo, alookup_aset_self]
    · simp [setTypeInfo, alookup_aset_ne _ _ _ _ hne, hroot2]
    · simp [payload, setTypeInfo, alookup_aset_self, ht1, ht2, selectBetterType,
        htv1, htv2]
  · next hge =>
    split
    · next hlt2 =>
      refine ⟨rfl, r1, Or.inl rfl, ?_, ?_, ?_⟩
      · simp [setTypeInfo, alookup_aset_ne _ _ _ _ (Ne.symm hne),
          alookup_aset_self, hroot1]
      · simp [setTypeInfo, alookup_aset_self]
      · simp [payload, setTypeInfo, alookup_aset_self, ht1, ht2,
          selectBetterType, htv1, htv2]
    · refine ⟨rfl, r1, Or.inl rfl, ?_, ?_, ?_⟩
      · simp [setTypeInfo, alookup_aset_ne _ _ _ _ (Ne.symm hne),
          alookup_aset_self, hroot1]
      · simp [setTypeInfo, alookup_aset_self]
      · simp [payload, setTypeInfo, alookup_aset_self, ht1, ht2,
          selectBetterType, htv1, htv2]

theorem union_typevar_right_substituted (fuel : Nat) (uf : UF) (a b : String)
    (r1 r2 : String) (uf1 uf2 : UF) (t1 t2 : CType)
    (hfa : findAux fuel uf a = (r1, uf1)) (hfb : findAux fuel uf1 b = (r2, uf2))
    (hne : r1 ≠ r2)
    (hroot1 : alookup uf2.parent r1 = some r1)
    (hroot2 : alookup uf2.parent r2 = some r2)
    (ht1 : payload uf2 r1 = some t1) (ht2 : payload uf2 r2 = some t2)
    (htv1 : t1.isTypevar = false) (htv2 : t2.isTypevar = true) :
    (union fuel uf a b).1 = true ∧
    ∃ rNew, (rNew = r1 ∨ rNew = r2) ∧
      alookup (union fuel uf a b).2.parent r1 = some rNew ∧
      alookup (union fuel uf a b).2.parent r2 = some rNew ∧
      payload (union fuel uf a b).2 rNew = some t1 := by
  simp only [union, hfa, hfb, if_neg hne]
  split
  · next hnone =>
    exfalso
    simp [ht1, ht2, htv1, htv2] at hnone
  · next uf3 hsome =>
    have huf3 : uf3 = setTypeInfo uf2 r2 (some t1) := by
      simp [ht1, ht2, htv1, htv2] at hsome
      exact hsome.symm
    subst huf3
    refine ⟨?_, ?_⟩
    · split
      · rfl
      · split <;> rfl
    split
    · next hlt =>
      refine ⟨r2, Or.inr rfl, ?_, ?_, ?_⟩
      · simp [setTypeInfo, alookup_aset_self]
      · simp [setTypeInfo, alookup_aset_ne _ _ _ _ hne, hroot2]
      · have ht1' : (alookup uf2.typeInfo r1).bind (fun a => a) = some t1 := ht1
        have ht2' : (alookup uf2.typeInfo r2).bind (fun a => a) = some t2 := ht2
        simp [payload, setTypeInfo, alookup_aset_self, ht1', ht2',
          selectBetterType, htv1, htv2]
    · split
      · next hlt2 =>
        refine ⟨r1, Or.inl rfl, ?_, ?_, ?_⟩
        · simp [setTypeInfo, alookup_aset_ne _ _ _ _ (Ne.symm hne),
            alookup_aset_self, hroot1]
        · simp [setTypeInfo, alookup_aset_self]
        · have ht1' : (alookup uf2.typeInfo r1).bind (fun a => a) = some t1 := ht1
          have ht2' : (alookup uf2.typeInfo r2).bind (fun a => a) = some t2 := ht2
          simp [payload, setTypeInfo, alookup_aset_self, ht1', ht2',
            selectBetterType, htv1, htv2]
      · refine ⟨r1, Or.inl rfl, ?_, ?_, ?_⟩
        · simp [setTypeInfo, alookup_aset_ne _ _ _ _ (Ne.symm hne),
            alookup_aset_self, hroot1]
        · simp [setTypeInfo, alookup_aset_self]
        · have ht1' : (alookup uf2.typeInfo r1).bind (fun a => a) = some t1 := ht1
          have ht2' : (alookup uf2.typeInfo r2).bind (fun a => a) = some t2 := ht2
          simp [payload, setTypeInfo, alookup_aset_self, ht1', ht2',
            selectBetterType, htv1, htv2]

/-- C10: `union(a, b)` returns `false` only when both roots carry stored
concrete payloads neither of which is a bare type variable (and they are
incompatible); whenever a root's payload is absent or is a type variable,
`union` returns `true`; and when exactly one side is a type variable, the
merged class's surviving root stores the other, more specific side's
payload. -/
theorem claim_C10_union_failure_characterization :
    (∀ fuel uf a b, (union fuel uf a b).1 = false →
      ∃ r1 uf1 r2 uf2 t1 t2,
        findAux fuel uf a = (r1, uf1) ∧ findAux fuel uf1 b = (r2, uf2) ∧
        r1 ≠ r2 ∧ payload uf2 r1 = some t1 ∧ payload uf2 r2 = some t2 ∧
        t1.isTypevar = false ∧ t2.isTypevar = false ∧
        isCompatible t1 t2 = false) ∧
    (∀ fuel uf a b r1 r2 uf1 uf2,
      findAux fuel uf a = (r1, uf1) → findAux fuel uf1 b = (r2, uf2) →
      (payload uf2 r1 = none ∨ payload uf2 r2 = none ∨
        (∃ t1, payload uf2 r1 = some t1 ∧ t1.isTypevar = true) ∨
        (∃ t2, payload uf2 r2 = some t2 ∧ t2.isTypevar = true)) →
      (union fuel uf a b).1 = true) ∧
    (∀ fuel uf a b r1 r2 uf1 uf2 t1 t2,
      findAux fuel uf a = (r1, uf1) → findAux fuel uf1 b = (r2, uf2) →
      r1 ≠ r2 → alookup uf2.parent r1 = some r1 →
      alookup uf2.parent r2 = some r2 →
      payload uf2 r1 = some t1 → payload uf2 r2 = some t2 →
      t1.isTypevar = true → t2.isTypevar = false →
      (union fuel uf a b).1 = true ∧
      ∃ rNew, (rNew = r1 ∨ rNew = r2) ∧
        alookup (union fuel uf a b).2.parent r1 = some rNew ∧
        alookup (union fuel uf a b).2.parent r2 = some rNew ∧
        payload (union fuel uf a b).2 rNew = some t2) ∧
    (∀ fuel uf a b r1 r2 uf1 uf2 t1 t2,
      findAux fuel uf a = (r1, uf1) → findAux fuel uf1 b = (r2, uf2) →
      r1 ≠ r2 → alookup uf2.parent r1 = some r1 →
      alookup uf2.parent r2 = some r2 →
      payload uf2 r1 = some t1 → payload uf2 r2 = some t2 →
      t1.isTypevar = false → t2.isTypevar = true →
      (union fuel uf a b).1 = true ∧
      ∃ rNew, (rNew = r1 ∨ rNew = r2) ∧
        alookup (union fuel uf a b).2.parent r1 = some rNew ∧
        alookup (union fuel uf a b).2.parent r2 = some rNew ∧
        payload (union fuel uf a b).2 rNew = some t1) :=
  ⟨fun fuel uf a b h => union_false_characterization fuel uf a b h,
   fun fuel uf a b r1 r2 uf1 uf2 hfa hfb hcond =>
     union_true_of_absent_or_typevar fuel uf a b r1 r2 uf1 uf2 hfa hfb hcond,
   fun fuel uf a b r1 r2 uf1 uf2 t1 t2 hfa hfb hne h1 h2 ht1 ht2 hv1 hv2 =>
     union_typevar_left_substituted fuel uf a b r1 r2 uf1 uf2 t1 t2 hfa hfb
       hne h1 h2 ht1 ht2 hv1 hv2,
   fun fuel uf a b r1 r2 uf1 uf2 t1 t2 hfa hfb hne h1 h2 ht1 ht2 hv1 hv2 =>
     union_typevar_right_substituted fuel uf a b r1 r2 uf1 uf2 t1 t2 hfa hfb
       hne h1 h2 ht1 ht2 hv1 hv2⟩

/-- The store used by C10's witness: a type-variable payload on `a`, a
concrete `int` on `b`. -/
def c10Store : UF :=
  ⟨[("a", "a"), ("b", "b")], [("a", 0), ("b", 0)],
   [("a", some (.typevar "α")), ("b", some .int)]⟩

/-- Witness for C10 (substitution part, type variable on the left). -/
theorem claim_C10_witness :
    findAux 1 c10Store "a" = ("a", c10Store) ∧
    findAux 1 c10Store "b" = ("b", c10Store) ∧
    ("a" : String) ≠ "b" ∧
    alookup c10Store.parent "a" = some "a" ∧
    alookup c10Store.parent "b" = some "b" ∧
    payload c10Store "a" = some (.typevar "α") ∧
    payload c10Store "b" = some .int ∧
    (CType.typevar "α").isTypevar = true ∧ CType.int.isTypevar = false ∧
    ((union 1 c10Store "a" "b").1 = true ∧
     ∃ rNew, (rNew = "a" ∨ rNew = "b") ∧
       alookup (union 1 c10Store "a" "b").2.parent "a" = some rNew ∧
       alookup (union 1 c10Store "a" "b").2.parent "b" = some rNew ∧
       payload (union 1 c10Store "a" "b").2 rNew = some .int) :=
  ⟨rfl, rfl, by decide, rfl, rfl, rfl, rfl, rfl, rfl,
   claim_C10_union_failure_characterization.2.2.1 1 c10Store "a" "b" "a" "b"
     c10Store c10Store (.typevar "α") .int rfl rfl (by decide) rfl rfl rfl rfl
     rfl rfl⟩

end Tip
